import Mathlib

/-!
# Relation-aware persistence engine: save and query workflows

A shallow embedding of the Go package `models` (`document_base.go`, `query.go`,
`collections.go`, `databaseconfig.go`, `errors.go`).

Modelling conventions

* Go strings that are inspected byte by byte (reference encodings) are lists of
  byte values (`Nat`, a byte is a value below 256); tags, field names and type
  names are Lean strings.
* A struct field of static type `interface{}` holds a dynamic `Value`; relation
  fields have to be declared with that type for `reflect.Value.Set` to accept
  both the in-memory object and the reference written by `Save`.
* A Go `panic` is an explicit outcome, distinct from a returned `error`.
* The document-store driver (`mgo`) is an external collaborator: its answers are
  supplied by an oracle (`Driver`, `Env.write`), and the calls issued to it are
  recorded (`SaveResult.writes`).
-/

namespace Models

/-! ## Identifiers (package `bson`) -/

/-- A Go string seen as its sequence of bytes. -/
abbrev GoString := List Nat

/-- The type `bson.ObjectId`: a string holding the raw bytes of the identifier. -/
abbrev ObjectId := List Nat

/-- The method `ObjectId.Valid`: the identifier is exactly twelve bytes long. -/
def ObjectId.Valid (id : ObjectId) : Bool := id.length == 12

/-- The function `fromHexChar` of `encoding/hex`: the value of one hexadecimal digit. -/
def fromHexChar (c : Nat) : Option Nat :=
  if 48 ≤ c ∧ c ≤ 57 then some (c - 48)
  else if 97 ≤ c ∧ c ≤ 102 then some (c - 97 + 10)
  else if 65 ≤ c ∧ c ≤ 70 then some (c - 65 + 10)
  else none

/-- The function `hex.DecodeString`: pairs of hexadecimal digits become bytes; a
non-digit or an odd length is an error (`none`). -/
def hexDecodeString : GoString → Option (List Nat)
  | [] => some []
  | [_] => none
  | p :: q :: rest =>
    match fromHexChar p, fromHexChar q with
    | some a, some b =>
      match hexDecodeString rest with
      | some bytes => some ((a * 16 + b) % 256 :: bytes)
      | none => none
    | _, _ => none

/-- The digit table `hextable` of `encoding/hex`, read at index `n`. -/
def hextable (n : Nat) : Nat := if n < 10 then 48 + n else 97 + (n - 10)

/-- The function `hex.EncodeToString`: two lower-case digits per byte. -/
def hexEncodeToString : List Nat → GoString
  | [] => []
  | v :: rest => hextable (v / 16) :: hextable (v % 16) :: hexEncodeToString rest

/-- The function `bson.IsObjectIdHex`: length 24 and decodable as hexadecimal. -/
def IsObjectIdHex (s : GoString) : Bool :=
  if s.length != 24 then false else (hexDecodeString s).isSome

/-- The function `bson.ObjectIdHex`: the decoded identifier; `none` stands for the
panic of the library on an undecodable string or a result that is not 12 bytes. -/
def ObjectIdHex (s : GoString) : Option ObjectId :=
  match hexDecodeString s with
  | some d => if d.length != 12 then none else some d
  | none => none

/-- The method `ObjectId.Hex`: the canonical hexadecimal encoding. -/
def ObjectId.Hex (id : ObjectId) : GoString := hexEncodeToString id

/-- A hexadecimal digit, either case. -/
def isHexDigit (c : Nat) : Bool :=
  (48 ≤ c && c ≤ 57) || (97 ≤ c && c ≤ 102) || (65 ≤ c && c ≤ 70)

/-- ASCII lower-casing of one byte. -/
def lowerByte (c : Nat) : Nat := if 65 ≤ c ∧ c ≤ 90 then c + 32 else c

/-! ## Errors (`errors.go`) and driver failures -/

/-- An error value produced by the driver. `errNotFound` is the sentinel
`mgo.ErrNotFound`; every other failure carries what `mgo.IsDup` answers for it. -/
inductive DriverError where
  | errNotFound
  | failure (isDup : Bool) (code : Nat)
  deriving DecidableEq, Repr

/-- The predicate `mgo.IsDup`. -/
def IsDup : DriverError → Bool
  | .errNotFound => false
  | .failure isDup _ => isDup

/-- A value of the Go interface `error` as the engine returns it. -/
inductive Error where
  | notFoundError (message : String)
  | duplicateError (message : String)
  | invalidIdError (message : String)
  | driver (e : DriverError)
  deriving DecidableEq, Repr

/-- The fatal conditions of the engine, one per `panic` statement. -/
inductive Panic where
  | notInitialized
  | relationMustBe1n
  | relationMustBe11
  | unsupportedFieldKind
  | childNotSaved
  | unsupportedElementType
  | invalidObjectIdHex
  | noResultSpecified
  | expectedDocument
  | expectedSlicePointer
  | modelTagNotSet
  | fieldNotFound
  | unknownRelationType
  | typeNotRegistered
  | documentNil
  | reflectMisuse
  | nilDereference
  deriving DecidableEq, Repr

/-! ## Records -/

def REL_11 : String := "11"
def REL_1N : String := "1n"

/-- The declaration of one struct field: its name and the three struct tags the
engine reads. -/
structure FieldDecl where
  name : String
  modelTag : String
  relationTag : String
  autosaveTag : String
  deriving DecidableEq, Repr

/-- The unexported wiring of `DocumentBase`: self reference, collection (by
name) and connection. -/
structure Wiring where
  document : Bool
  collection : Option String
  connection : Bool
  deriving DecidableEq, Repr

mutual
/-- The dynamic value held by an `interface{}` field. `docSlice` is a non-nil
slice of record pointers, `nilDocSlice` the nil slice of that type (the field
itself is not nil then); nil slices of other element types are not modelled. -/
inductive Value where
  | nil
  | objectId (id : ObjectId)
  | str (s : GoString)
  | doc (d : Document)
  | idSlice (ids : List ObjectId)
  | ifaceSlice (xs : List Value)
  | docSlice (ds : List Document)
  | nilDocSlice
  | other (tag : Nat)
/-- A record: a pointer to a struct embedding `DocumentBase`. -/
inductive Document where
  | mk (typeName : String) (wiring : Wiring) (Id : ObjectId)
      (CreatedAt UpdatedAt : Nat) (fields : List (FieldDecl × Value))
end

abbrev Field := FieldDecl × Value

namespace Document

def typeName : Document → String
  | mk n _ _ _ _ _ => n
def wiring : Document → Wiring
  | mk _ w _ _ _ _ => w
def Id : Document → ObjectId
  | mk _ _ i _ _ _ => i
def CreatedAt : Document → Nat
  | mk _ _ _ c _ _ => c
def UpdatedAt : Document → Nat
  | mk _ _ _ _ u _ => u
def fields : Document → List Field
  | mk _ _ _ _ _ fs => fs

def GetId (d : Document) : ObjectId := d.Id
def SetId (d : Document) (id : ObjectId) : Document :=
  mk d.typeName d.wiring id d.CreatedAt d.UpdatedAt d.fields
def SetCreatedAt (d : Document) (t : Nat) : Document :=
  mk d.typeName d.wiring d.Id t d.UpdatedAt d.fields
def SetUpdatedAt (d : Document) (t : Nat) : Document :=
  mk d.typeName d.wiring d.Id d.CreatedAt t d.fields
def setFields (d : Document) (fs : List Field) : Document :=
  mk d.typeName d.wiring d.Id d.CreatedAt d.UpdatedAt fs
def setWiring (d : Document) (w : Wiring) : Document :=
  mk d.typeName w d.Id d.CreatedAt d.UpdatedAt d.fields

end Document

/-! ## The save engine (`document_base.go`) -/

/-- What a step of the engine yields: a value, a returned `error`, or a panic. -/
inductive Res (α : Type) where
  | ok (a : α)
  | err (e : Error)
  | panic (p : Panic)

/-- The method `DocumentBase.persistRelation`: the reference of one relation
element. The `autoSave` argument is not acted upon. -/
def persistRelation (value : Value) (_autoSave : Bool) : Res ObjectId :=
  match value with
  | .doc typedValue =>
    let objectId := typedValue.GetId
    if !objectId.Valid then .panic .childNotSaved else .ok objectId
  | .objectId typedValue =>
    if !typedValue.Valid then .panic .childNotSaved else .ok typedValue
  | .str typedValue =>
    if !IsObjectIdHex typedValue then .err (.invalidIdError "Invalid id`s given")
    else
      match ObjectIdHex typedValue with
      | some id => .ok id
      | none => .panic .invalidObjectIdHex
  | _ => .panic .unsupportedElementType

/-- The inner loop of `Save` over the elements of a slice: the references in
order, or the first failure. -/
def persistSlice : List Value → Bool → Res (List ObjectId)
  | [], _ => .ok []
  | sliceValue :: rest, autoSave =>
    match persistRelation sliceValue autoSave with
    | .err e => .err e
    | .panic p => .panic p
    | .ok objectId =>
      match persistSlice rest autoSave with
      | .ok ids => .ok (objectId :: ids)
      | .err e => .err e
      | .panic p => .panic p

/-- The elements of a value of kind slice, `none` for every other kind. -/
def sliceElements : Value → Option (List Value)
  | .idSlice ids => some (ids.map Value.objectId)
  | .ifaceSlice xs => some xs
  | .docSlice ds => some (ds.map Value.doc)
  | .nilDocSlice => some []
  | _ => none

/-- The relation kind `Save` works with: the declared one, one-to-one by default. -/
def relationOf (relationTag : String) : String :=
  if relationTag = REL_11 then REL_11
  else if relationTag = REL_1N then REL_1N
  else REL_11

/-- What the body of the field loop of `Save` does with one field. -/
inductive FieldStep where
  | next (f : Field)
  | buffered (f : Field) (old : Value)
  | ret (e : Error)
  | panic (p : Panic)

/-- One iteration of the field loop of `Save`. -/
def saveField (f : Field) : FieldStep :=
  let modelTag := f.1.modelTag
  let relationTag := f.1.relationTag
  let autoSaveTag := f.1.autosaveTag
  if modelTag.length > 0 then
    let relation := relationOf relationTag
    match f.2 with
    | .nil =>
      if relation = REL_1N then .next (f.1, .idSlice []) else .next f
    | fieldValue =>
      let autoSave := if autoSaveTag = "true" then true else false
      match sliceElements fieldValue with
      | some elems =>
        if relation ≠ REL_1N then .panic .relationMustBe1n
        else
          match persistSlice elems autoSave with
          | .err e => .ret e
          | .panic p => .panic p
          | .ok idBuffer => .buffered (f.1, .idSlice idBuffer) fieldValue
      | none =>
        match fieldValue with
        | .other _ => .panic .unsupportedFieldKind
        | _ =>
          if relation ≠ REL_11 then .panic .relationMustBe11
          else
            match persistRelation fieldValue autoSave with
            | .err e => .ret e
            | .panic p => .panic p
            | .ok idBuffer => .buffered (f.1, .objectId idBuffer) fieldValue
  else .next f

/-- How the field loop of `Save` ends. -/
inductive LoopExit where
  | finished
  | returned (e : Error)
  | panicked (p : Panic)

/-- The state the field loop leaves behind: the fields as overwritten so far,
the buffer registry (field index, original value), and how the loop ended. -/
structure LoopState where
  fields : List Field
  bufferRegistry : List (Nat × Value)
  exit : LoopExit

/-- The field loop of `Save` from index `fieldIndex` on. -/
def relationLoop : Nat → List Field → LoopState
  | _, [] => ⟨[], [], .finished⟩
  | fieldIndex, f :: rest =>
    match saveField f with
    | .next f1 =>
      let s := relationLoop (fieldIndex + 1) rest
      ⟨f1 :: s.fields, s.bufferRegistry, s.exit⟩
    | .buffered f1 old =>
      let s := relationLoop (fieldIndex + 1) rest
      ⟨f1 :: s.fields, (fieldIndex, old) :: s.bufferRegistry, s.exit⟩
    | .ret e => ⟨f :: rest, [], .returned e⟩
    | .panic p => ⟨f :: rest, [], .panicked p⟩

/-- The call `field.Set(oldValue)` on the field at an index. -/
def setFieldValue : List Field → Nat → Value → List Field
  | [], _, _ => []
  | f :: fs, 0, v => (f.1, v) :: fs
  | f :: fs, i + 1, v => f :: setFieldValue fs i v

/-- The restore loop of `Save` over the buffer registry. -/
def restoreFields : List (Nat × Value) → List Field → List Field
  | [], fs => fs
  | (i, oldValue) :: rest, fs => restoreFields rest (setFieldValue fs i oldValue)

/-- A write issued to the driver. -/
inductive WriteOp where
  | insert (collection : String) (document : Document)
  | upsertId (collection : String) (id : ObjectId) (document : Document)

/-- The document a write hands to the store. -/
def WriteOp.document : WriteOp → Document
  | .insert _ d => d
  | .upsertId _ _ d => d

/-- What `Save` takes from its environment: the clock (`time.Now`), the
identifier generator (`bson.NewObjectId`) and the answer of the store to a
write (`none` is success). -/
structure Env where
  now : Nat
  newObjectId : ObjectId
  write : WriteOp → Option DriverError

/-- How a call ends for the caller. -/
inductive Outcome where
  | panicked (p : Panic)
  | returned (err : Option Error)
  deriving DecidableEq, Repr

/-- The observable result of `Save`: how it ended, the record in memory
afterwards, and the writes issued to the store. -/
structure SaveResult where
  outcome : Outcome
  document : Document
  writes : List WriteOp

/-- The method `DocumentBase.Save`. -/
def Save (env : Env) (d : Document) : SaveResult :=
  match d.wiring.collection with
  | none => ⟨.panicked .notInitialized, d, []⟩
  | some collectionName =>
    if d.wiring.document = false ∨ d.wiring.connection = false then
      ⟨.panicked .notInitialized, d, []⟩
    else
      let s := relationLoop 0 d.fields
      match s.exit with
      | .panicked p => ⟨.panicked p, d.setFields s.fields, []⟩
      | .returned e => ⟨.returned (some e), d.setFields s.fields, []⟩
      | .finished =>
        let d1 := d.setFields s.fields
        let now := env.now
        if d1.Id.length = 0 then
          let d2 := ((d1.SetCreatedAt now).SetUpdatedAt now).SetId env.newObjectId
          let op := WriteOp.insert collectionName d2
          let err : Option Error :=
            match env.write op with
            | none => none
            | some e =>
              if IsDup e then some (.duplicateError "Duplicate key") else some (.driver e)
          ⟨.returned err, d2.setFields (restoreFields s.bufferRegistry d2.fields), [op]⟩
        else
          let d2 := d1.SetUpdatedAt now
          let op := WriteOp.upsertId collectionName d2.Id d2
          let err : Option Error :=
            match env.write op with
            | none => none
            | some errs => if IsDup errs then none else some (.driver errs)
          ⟨.returned err, d2.setFields (restoreFields s.bufferRegistry d2.fields), [op]⟩

/-! ## Connection and registry (`databaseconfig.go`) -/

/-- The runtime type of a record (`reflect.Type`): its name and field declarations. -/
structure StructType where
  name : String
  fields : List FieldDecl
  deriving DecidableEq, Repr

/-- The two registries of `Connection`, keyed by lower-cased type name: the
collection (by name) and the type descriptor. A later entry for a key shadows
the earlier ones, as an assignment to a Go map replaces the value. -/
structure Connection where
  modelRegistry : List (String × String)
  typeRegistry : List (String × StructType)
  deriving DecidableEq, Repr

/-- The function `unicode.ToLower` on the capital letters A to Z, the Latin-1
capitals U+00C0 to U+00DE, the Greek capitals U+0391 to U+03AB and the Cyrillic
capitals U+0400 to U+042F; every other character is left as it is (Go also
lower-cases the capital letters outside these ranges, which are not modelled). -/
def lowerChar (c : Char) : Char :=
  let n := c.toNat
  if (65 ≤ n ∧ n ≤ 90) ∨ (192 ≤ n ∧ n ≤ 222 ∧ n ≠ 215) ∨ (913 ≤ n ∧ n ≤ 939 ∧ n ≠ 930) ∨
      (1040 ≤ n ∧ n ≤ 1071) then Char.ofNat (n + 32)
  else if 1024 ≤ n ∧ n ≤ 1039 then Char.ofNat (n + 80)
  else c

/-- The function `strings.ToLower` on type names, character by character. -/
def ToLower (s : String) : String := ⟨s.data.map lowerChar⟩

/-- The type `Collection` (`collections.go`): the name of the storage collection. -/
structure Collection where
  Name : String
  deriving DecidableEq, Repr

/-- The expression `reflect.TypeOf(document).Elem()`. -/
def Document.structType (d : Document) : StructType :=
  ⟨d.typeName, d.fields.map Prod.fst⟩

/-- The expression `reflect.New(reflectType)`: a zero-valued record. -/
def StructType.zero (t : StructType) : Document :=
  .mk t.name ⟨false, none, false⟩ [] 0 0 (t.fields.map fun decl => (decl, Value.nil))

/-- The method `Collection.New`: wires collection, self reference and
connection onto a record. -/
def Collection.New (c : Collection) (document : Document) : Document :=
  document.setWiring ⟨true, some c.Name, true⟩

/-- The method `Connection.document`: a fresh bound instance of the type
registered under the lower-cased name, or a panic. -/
def Connection.document (c : Connection) (typeName : String) : Res Document :=
  let typeNameLC := ToLower typeName
  match c.typeRegistry.lookup typeNameLC with
  | some reflectType =>
    match c.modelRegistry.lookup typeNameLC with
    | some collectionName => .ok ((Collection.mk collectionName).New reflectType.zero)
    | none => .panic .nilDereference
  | none => .panic .typeNotRegistered

/-- The method `Connection.Model` for a non-nil document: registers the type of
the document under its lower-cased name with the named collection. -/
def Connection.Model (c : Connection) (document : Document) (collectionName : String) :
    Collection × Connection :=
  let typeName := ToLower document.typeName
  let model := Collection.mk collectionName
  (model, ⟨(typeName, collectionName) :: c.modelRegistry,
           (typeName, document.structType) :: c.typeRegistry⟩)

/-! ## Queries (`collections.go`, `query.go`) -/

/-- The filter expressions the engine builds, and any caller-supplied one. -/
inductive Filter where
  | all
  | byId (id : ObjectId)
  | idIn (ids : List Value)
  | custom (tag : Nat)

/-- The type `Query`. -/
structure Query where
  collection : String
  query : Filter
  selector : Option Nat
  populate : List String
  sort : List String
  limit : Int
  skip : Int
  multiple : Bool

/-- The method `Collection.Find` with one filter argument. -/
def Collection.Find (c : Collection) (query : Filter) : Query :=
  ⟨c.Name, query, none, [], [], 0, 0, true⟩

/-- The method `Collection.FindId`. -/
def Collection.FindId (c : Collection) (id : ObjectId) : Query :=
  ⟨c.Name, .byId id, none, [], [], 0, 0, false⟩

/-- The method `Collection.FindOne` with one filter argument. -/
def Collection.FindOne (c : Collection) (query : Filter) : Query :=
  ⟨c.Name, query, none, [], [], 0, 0, false⟩

namespace Query

def Select (q : Query) (selector : Nat) : Query := { q with selector := some selector }
/-- The method `Query.Sort` (the name `Sort` is reserved in Lean). -/
def SortBy (q : Query) (fields : List String) : Query := { q with sort := q.sort ++ fields }
def Limit (q : Query) (limit : Int) : Query := { q with limit := limit }
def Skip (q : Query) (skip : Int) : Query := { q with skip := skip }
def Populate (q : Query) (fields : List String) : Query :=
  { q with populate := q.populate ++ fields }

end Query

/-- The native query handed to the driver after `extendQuery`. -/
structure MgoQuery where
  collection : String
  filter : Filter
  selector : Option Nat
  sort : List String
  limit : Option Int
  skip : Option Int

/-- The expression `q.collection.Find(q.query)` followed by `extendQuery`. -/
def Query.extendQuery (q : Query) : MgoQuery :=
  ⟨q.collection, q.query, q.selector,
   if q.sort.length > 0 then q.sort else [],
   if q.limit ≠ 0 then some q.limit else none,
   if q.skip ≠ 0 then some q.skip else none⟩

/-- The read side of the driver. `one` answers `mgo.Query.One`: the record as
decoded into the destination, or the error of the driver. On `errNotFound` the
driver has not touched the destination; what a failed decode may leave in the
destination is not modelled. `all` answers `mgo.Query.All` likewise. -/
structure Driver where
  one : MgoQuery → Except DriverError Document
  all : MgoQuery → Except DriverError (List Document)

/-- The destination handed to `Exec`: nothing, a pointer to a record, or a
pointer to a slice of records, where `none` is the nil slice. -/
inductive Dest where
  | nil
  | single (document : Document)
  | multi (documents : Option (List Document))

/-- The slice `mgo.Iter.All` leaves in the destination: it reslices the slice it
finds there and appends the fetched records, so a nil slice stays nil when no
record is fetched and the slice is non-nil in every other case. -/
def sliceAfterAll (before : Option (List Document)) (fetched : List Document) :
    Option (List Document) :=
  match before, fetched with
  | none, [] => none
  | _, _ => some fetched

/-- The elements of a one-to-many field as `initWithObjectId` reads them:
`slice.Index(index).Elem().Interface().(bson.ObjectId)`. -/
def objectIdsOfInterfaces : List Value → Res (List ObjectId)
  | [] => .ok []
  | .objectId id :: rest =>
    match objectIdsOfInterfaces rest with
    | .ok ids => .ok (id :: ids)
    | .err e => .err e
    | .panic p => .panic p
  | _ :: _ => .panic .reflectMisuse

/-- The body of the field loop of `initWithObjectId` for one field. -/
def initField (f : Field) : Res Field :=
  let relationTag := f.1.relationTag
  if relationTag.length > 0 then
    if relationTag = REL_1N then
      match f.2 with
      | .nil => .ok f
      | .ifaceSlice xs =>
        match objectIdsOfInterfaces xs with
        | .ok idSlice => .ok (f.1, .idSlice idSlice)
        | .err e => .err e
        | .panic p => .panic p
      | .idSlice [] => .ok (f.1, .idSlice [])
      | .docSlice [] => .ok (f.1, .idSlice [])
      | .nilDocSlice => .ok (f.1, .idSlice [])
      | .str [] => .ok (f.1, .idSlice [])
      | .objectId [] => .ok (f.1, .idSlice [])
      | _ => .panic .reflectMisuse
    else
      match f.2 with
      | .nil => .ok f
      | .objectId objectId => .ok (f.1, .objectId objectId)
      | _ => .panic .reflectMisuse
  else .ok f

/-- The field loop of `initWithObjectId`. -/
def initFields : List Field → Res (List Field)
  | [] => .ok []
  | f :: rest =>
    match initField f with
    | .ok f1 =>
      match initFields rest with
      | .ok fs => .ok (f1 :: fs)
      | .err e => .err e
      | .panic p => .panic p
    | .err e => .err e
    | .panic p => .panic p

/-- The method `Query.initWithObjectId`: when nothing is to be populated, the
relation fields are converted from the generic decoding of the driver to
identifier types. -/
def Query.initWithObjectId (q : Query) (document : Document) : Res Document :=
  if q.populate.length = 0 then
    match initFields document.fields with
    | .ok fs => .ok (document.setFields fs)
    | .err e => .err e
    | .panic p => .panic p
  else .ok document

/-- The method `Query.initDocument`: calls the three wiring setters. -/
def initDocument (document : Document) (collection : String) : Document :=
  document.setWiring ⟨true, some collection, true⟩

/-- The per-record work of `Exec` after a successful fetch. -/
def Query.initRecord (q : Query) (document : Document) : Res Document :=
  match q.initWithObjectId document with
  | .ok d => .ok (initDocument d q.collection)
  | .err e => .err e
  | .panic p => .panic p

/-- The loop of `Exec` over the records of a multi-result fetch. -/
def Query.initRecords (q : Query) : List Document → Res (List Document)
  | [] => .ok []
  | current :: rest =>
    match q.initRecord current with
    | .ok d =>
      match q.initRecords rest with
      | .ok ds => .ok (d :: ds)
      | .err e => .err e
      | .panic p => .panic p
    | .err e => .err e
    | .panic p => .panic p

/-- The result of `Exec`: a panic, or the returned error with the destination
as it is afterwards. -/
inductive ExecResult where
  | panicked (p : Panic)
  | returned (err : Option Error) (result : Dest)

/-- The method `Query.Exec`. -/
def Query.Exec (drv : Driver) (q : Query) (result : Dest) : ExecResult :=
  match result with
  | .nil => .panicked .noResultSpecified
  | .multi documents =>
    if !q.multiple then .panicked .expectedDocument
    else
      match drv.all q.extendQuery with
      | .error .errNotFound => .returned (some (.notFoundError "No records found")) (.multi documents)
      | .error err => .returned (some (.driver err)) (.multi documents)
      | .ok slice =>
        match q.initRecords slice with
        | .ok ds => .returned none (.multi (sliceAfterAll documents ds))
        | .err e => .returned (some e) (.multi (sliceAfterAll documents slice))
        | .panic p => .panicked p
  | .single document =>
    if q.multiple then .panicked .expectedSlicePointer
    else
      match drv.one q.extendQuery with
      | .error .errNotFound => .returned (some (.notFoundError "No records found")) (.single document)
      | .error err => .returned (some (.driver err)) (.single document)
      | .ok value =>
        match q.initRecord value with
        | .ok d => .returned none (.single d)
        | .err e => .returned (some e) (.single value)
        | .panic p => .panicked p

/-- The result of `runPopulation`: how it ended, the record and the registry
afterwards. -/
structure PopulationResult where
  outcome : Outcome
  document : Document
  connection : Connection

/-- What the loop body of `runPopulation` does for one field name; each case
carries the registry as the step leaves it. -/
inductive PopulateStep where
  | next (document : Document) (connection : Connection)
  | ret (e : Error) (document : Document) (connection : Connection)
  | panic (p : Panic) (connection : Connection)

/-- The registry after a step of `runPopulation`. -/
def PopulateStep.connection : PopulateStep → Connection
  | .next _ c => c
  | .ret _ _ c => c
  | .panic _ c => c

/-- The lookup `FieldByName` among the fields of a record. -/
def fieldByName (fs : List Field) (name : String) : Option Field :=
  fs.find? fun f => f.1.name = name

/-- The fields every record gets from the embedded `DocumentBase`; none of them
carries a `model` tag. -/
def documentBaseFields : List String :=
  ["DocumentBase", "document", "collection", "connection", "Id", "CreatedAt", "UpdatedAt"]

/-- The call `field.Set(value)` on the field of a given name. -/
def setFieldByName : List Field → String → Value → List Field
  | [], _, _ => []
  | f :: fs, name, v =>
    if f.1.name = name then (f.1, v) :: fs else f :: setFieldByName fs name v

/-- The loop body of `runPopulation` for the field name `populateFieldName`. -/
def Query.populateField (drv : Driver) (q : Query) (conn : Connection) (document : Document)
    (populateFieldName : String) : PopulateStep :=
  match fieldByName document.fields populateFieldName with
  | none =>
    if populateFieldName ∈ documentBaseFields then .panic .modelTagNotSet conn
    else .panic .fieldNotFound conn
  | some structField =>
    let modelTagValue := structField.1.modelTag
    if modelTagValue.length = 0 then .panic .modelTagNotSet conn
    else
      match conn.document modelTagValue with
      | .panic p => .panic p conn
      | .err e => .ret e document conn
      | .ok relatedDocument =>
        let (relatedModel, conn1) := conn.Model relatedDocument modelTagValue
        match structField.2 with
        | .nil => .next document conn1
        | .objectId relatedId =>
          match (relatedModel.FindId relatedId).Exec drv (.single relatedDocument) with
          | .panicked p => .panic p conn1
          | .returned relationError (.single relatedDocument1) =>
            if relationError = some (.driver .errNotFound) then
              .ret (.driver .errNotFound) document conn1
            else
              match q.initWithObjectId relatedDocument1 with
              | .panic p => .panic p conn1
              | .err e => .ret e document conn1
              | .ok value =>
                let value1 := initDocument value relatedModel.Name
                .next (document.setFields
                  (setFieldByName document.fields populateFieldName (.doc value1))) conn1
          | .returned _ _ => .panic .reflectMisuse conn1
        | .ifaceSlice idSliceInterface =>
          match (relatedModel.Find (.idIn idSliceInterface)).Exec drv (.multi none) with
          | .panicked p => .panic p conn1
          | .returned relationError (.multi resultSlice) =>
            if relationError = some (.driver .errNotFound) ∨ idSliceInterface.length = 0 then
              .next (document.setFields
                (setFieldByName document.fields populateFieldName (.docSlice []))) conn1
            else
              match relationError with
              | some e => .ret e document conn1
              | none =>
                match ({ q with collection := relatedModel.Name } : Query).initRecords
                    (resultSlice.getD []) with
                | .panic p => .panic p conn1
                | .err e => .ret e document conn1
                | .ok children =>
                  .next (document.setFields
                    (setFieldByName document.fields populateFieldName
                      (match resultSlice with
                       | none => .nilDocSlice
                       | some _ => .docSlice children))) conn1
          | .returned _ _ => .panic .reflectMisuse conn1
        | _ => .panic .unknownRelationType conn1

/-- The loop of `runPopulation` over the requested field names. -/
def Query.populateLoop (drv : Driver) (q : Query) :
    List String → Connection → Document → PopulationResult
  | [], conn, document => ⟨.returned none, document, conn⟩
  | populateFieldName :: rest, conn, document =>
    match q.populateField drv conn document populateFieldName with
    | .next document1 conn1 => q.populateLoop drv rest conn1 document1
    | .ret e document1 conn1 => ⟨.returned (some e), document1, conn1⟩
    | .panic p conn1 => ⟨.panicked p, document, conn1⟩

/-- The method `Query.runPopulation`. -/
def Query.runPopulation (drv : Driver) (q : Query) (conn : Connection) (document : Document) :
    PopulationResult :=
  q.populateLoop drv q.populate conn document

/-- The method `DocumentBase.Populate`. -/
def Populate (drv : Driver) (conn : Connection) (d : Document) (field : List String) :
    PopulationResult :=
  match d.wiring.collection with
  | none => ⟨.panicked .notInitialized, d, conn⟩
  | some collectionName =>
    if d.wiring.document = false ∨ d.wiring.connection = false then
      ⟨.panicked .notInitialized, d, conn⟩
    else
      let query : Query := ⟨collectionName, .all, none, field, [], 0, 0, false⟩
      query.runPopulation drv conn d

/-! ## Reference behaviour and example data -/

/-- The effect `Save` has by design on a field it does not buffer: an unset
one-to-many relation field is initialised with an empty sequence of references;
every other field is left as it is. -/
def initUnset (f : Field) : Field :=
  match f.2 with
  | .nil =>
    if f.1.modelTag.length > 0 ∧ relationOf f.1.relationTag = REL_1N then (f.1, .idSlice [])
    else f
  | _ => f

/-- The reference a relation element stands for: the identifier of a record,
an identifier itself, or the identifier a reference string encodes. -/
def referenceOf : Value → Option ObjectId
  | .doc d => some d.Id
  | .objectId id => some id
  | .str s => ObjectIdHex s
  | _ => none

/-- The field holds a string that is not a canonical reference encoding, directly
or as an element of a sequence. -/
def holdsMalformedString (f : Field) : Prop :=
  (∃ s, f.2 = .str s ∧ IsObjectIdHex s = false) ∨
  (∃ xs s, f.2 = .ifaceSlice xs ∧ Value.str s ∈ xs ∧ IsObjectIdHex s = false)

/-- The record is wired to a collection, to itself and to the connection. -/
def Document.bound (d : Document) : Prop :=
  d.wiring.document = true ∧ d.wiring.collection.isSome = true ∧ d.wiring.connection = true

/-- The generic decoding by the driver of a value `Save` stored. -/
def decodeValue : Value → Value
  | .idSlice ids => .ifaceSlice (ids.map Value.objectId)
  | v => v

/-- A stored document as the driver decodes it into a destination: no wiring,
relation fields in the generic decoding. -/
def asDecoded (d : Document) : Document :=
  .mk d.typeName ⟨false, none, false⟩ d.Id d.CreatedAt d.UpdatedAt
    (d.fields.map fun f => (f.1, decodeValue f.2))

/-- Whether a stored document matches a filter of the engine. -/
def matchesFilter : Filter → Document → Bool
  | .all, _ => true
  | .byId id, d => d.Id == id
  | .idIn ids, d =>
    ids.any fun v =>
      match v with
      | .objectId id => id == d.Id
      | _ => false
  | .custom _, _ => false

/-- The documents of a collection matching a native query, in stored order,
with skip and limit applied. -/
def matching (store : List (String × List Document)) (mq : MgoQuery) : List Document :=
  let docs := ((store.lookup mq.collection).getD []).filter (matchesFilter mq.filter)
  let docs := match mq.skip with
    | some n => docs.drop n.toNat
    | none => docs
  match mq.limit with
  | some n => docs.take n.toNat
  | none => docs

/-- A driver that never fails and answers from the given contents of the store. -/
def memoryDriver (store : List (String × List Document)) : Driver where
  one mq :=
    match matching store mq with
    | [] => .error .errNotFound
    | d :: _ => .ok d
  all mq := .ok (matching store mq)

/-- The registry after a sequence of calls of `Model`, oldest first: each entry
is the sample record and the collection name of one call. -/
def registerAll (c : Connection) : List (Document × String) → Connection
  | [] => c
  | (document, collectionName) :: rest => registerAll (c.Model document collectionName).2 rest

namespace Example

def managerDecl : FieldDecl := ⟨"Manager", "Person", "11", ""⟩
def reportsDecl : FieldDecl := ⟨"Reports", "Person", "1n", ""⟩
def buddyDecl : FieldDecl := ⟨"Buddy", "Person", "11", ""⟩
def nickDecl : FieldDecl := ⟨"Nick", "", "", ""⟩

/-- A new bound record without relation fields. -/
def user : Document :=
  .mk "User" ⟨true, some "users", true⟩ [] 0 0 [(nickDecl, .str [98, 111, 98])]

def personType : StructType := ⟨"Person", [managerDecl, reportsDecl]⟩

def idM : ObjectId := [1, 2, 3, 4, 5, 6, 7, 8, 9, 10, 11, 12]
def idE : ObjectId := [21, 22, 23, 24, 25, 26, 27, 28, 29, 30, 31, 32]
def idX : ObjectId := [41, 42, 43, 44, 45, 46, 47, 48, 49, 50, 51, 52]

def people : Collection := ⟨"Person"⟩

/-- The registry after `Model(&Person{}, "Person")`. -/
def connection : Connection :=
  ((Connection.mk [] []).Model personType.zero "Person").2

/-- A new bound person with the given relation values. -/
def person (manager reports : Value) : Document :=
  .mk "Person" ⟨true, some "Person", true⟩ [] 0 0
    [(managerDecl, manager), (reportsDecl, reports)]

def envM : Env := ⟨10, idM, fun _ => none⟩
def envE : Env := ⟨20, idE, fun _ => none⟩

/-- The manager `M` after its first save. -/
def manager : Document := (Save envM (person .nil .nil)).document

/-- The employee `E` with `E.Manager = M`, after its first save. -/
def employee : Document := (Save envE (person (.doc manager) .nil)).document

/-- The store after the two saves. -/
def store : List (String × List Document) :=
  [("Person", ((Save envM (person .nil .nil)).writes ++
      (Save envE (person (.doc manager) .nil)).writes).map fun op => asDecoded op.document)]

/-- A store answering every upsert and insert with a duplicate-key failure. -/
def envDup : Env := ⟨30, idX, fun _ => some (.failure true 11000)⟩

/-- A record with three relation fields, for the save examples. -/
def team (manager reports buddy : Value) : Document :=
  .mk "Person" ⟨true, some "Person", true⟩ idE 5 5
    [(managerDecl, manager), (reportsDecl, reports), (buddyDecl, buddy)]

/-- A saved child with the given identifier. -/
def child (id : ObjectId) : Document :=
  .mk "Person" ⟨true, some "Person", true⟩ id 1 1 [(managerDecl, .nil), (reportsDecl, .idSlice [])]

/-- The bytes of the string "xyz": not a reference encoding. -/
def malformed : GoString := [120, 121, 122]

/-- The bytes of the string "0102030405060708090A0b0C". -/
def hexM : GoString :=
  [48, 49, 48, 50, 48, 51, 48, 52, 48, 53, 48, 54, 48, 55, 48, 56, 48, 57, 48, 65, 48, 98, 48, 67]

def tasksDecl : FieldDecl := ⟨"Tasks", "Task", "1n", ""⟩
def bossDecl : FieldDecl := ⟨"Boss", "Worker", "11", ""⟩

def taskType : StructType := ⟨"Task", []⟩
def workerType : StructType := ⟨"Worker", [tasksDecl, bossDecl]⟩

/-- The registry after `Model(&Worker{}, "workers")` and `Model(&Task{}, "tasks")`. -/
def office : Connection :=
  registerAll ⟨[], []⟩ [(workerType.zero, "workers"), (taskType.zero, "tasks")]

/-- A bound worker with the given relation values. -/
def worker (tasks boss : Value) : Document :=
  .mk "Worker" ⟨true, some "workers", true⟩ idE 5 5 [(tasksDecl, tasks), (bossDecl, boss)]

/-- A driver whose every fetch fails. -/
def failingDriver : Driver :=
  ⟨fun _ => .error (.failure false 9), fun _ => .error (.failure false 9)⟩

/-- A driver that knows one worker, stored in the collection "workers". -/
def workersDriver : Driver :=
  memoryDriver [("workers", [.mk "Worker" ⟨false, none, false⟩ idX 3 3
    [(tasksDecl, .nil), (bossDecl, .nil)]])]

end Example

/-! ## Reference encodings -/

theorem fromHexChar_some {c a : Nat} (h : fromHexChar c = some a) :
    a < 16 ∧ hextable a = lowerByte c ∧ isHexDigit c = true := by
  unfold fromHexChar at h
  unfold hextable lowerByte isHexDigit
  split_ifs at h with h1 h2 h3 <;> simp at h <;> subst h
  · refine ⟨by omega, ?_, ?_⟩
    · split_ifs <;> omega
    · simp [h1]
  · refine ⟨by omega, ?_, ?_⟩
    · split_ifs <;> omega
    · simp [h2]
  · refine ⟨by omega, ?_, ?_⟩
    · split_ifs <;> omega
    · simp [h3]

theorem fromHexChar_none {c : Nat} (h : fromHexChar c = none) : isHexDigit c = false := by
  unfold fromHexChar at h
  unfold isHexDigit
  split_ifs at h with h1 h2 h3
  simp only [Bool.or_eq_false_iff, Bool.and_eq_false_iff, decide_eq_false_iff_not]
  omega

theorem fromHexChar_isSome (c : Nat) : (fromHexChar c).isSome = isHexDigit c := by
  cases h : fromHexChar c with
  | none => simp [fromHexChar_none h]
  | some a => simp [(fromHexChar_some h).2.2]


theorem hexDecodeString_pair (p q : Nat) (rest : GoString) :
    hexDecodeString (p :: q :: rest) =
      (fromHexChar p).bind fun a => (fromHexChar q).bind fun b =>
        (hexDecodeString rest).map fun bytes => (a * 16 + b) % 256 :: bytes := by
  cases hp : fromHexChar p <;> cases hq : fromHexChar q <;>
    cases hr : hexDecodeString rest <;> simp [hexDecodeString, hp, hq, hr]

theorem pair_induction {P : GoString → Prop} (h0 : P []) (h1 : ∀ c, P [c])
    (h2 : ∀ p q rest, P rest → P (p :: q :: rest)) : ∀ s, P s
  | [] => h0
  | [c] => h1 c
  | p :: q :: rest => h2 p q rest (pair_induction h0 h1 h2 rest)

theorem hexDecodeString_length (s : GoString) :
    ∀ d, hexDecodeString s = some d → 2 * d.length = s.length := by
  induction s using pair_induction with
  | h0 => intro d h; simp [hexDecodeString] at h; subst h; rfl
  | h1 c => intro d h; simp [hexDecodeString] at h
  | h2 p q rest ih =>
    intro d h
    rw [hexDecodeString_pair] at h
    cases hp : fromHexChar p <;> cases hq : fromHexChar q <;>
      cases hr : hexDecodeString rest <;> simp [hp, hq, hr] at h
    subst h
    have := ih _ hr
    simp only [List.length_cons]; omega

theorem hexDecodeString_isSome_iff (s : GoString) :
    (hexDecodeString s).isSome = true ↔
      (s.length % 2 = 0 ∧ ∀ c ∈ s, isHexDigit c = true) := by
  induction s using pair_induction with
  | h0 => simp [hexDecodeString]
  | h1 c => simp [hexDecodeString]
  | h2 p q rest ih =>
    have hlen : (p :: q :: rest).length % 2 = rest.length % 2 := by
      simp only [List.length_cons]; omega
    rw [hlen]
    cases hp : fromHexChar p with
    | none =>
      have hd := fromHexChar_none hp
      have he : hexDecodeString (p :: q :: rest) = none := by
        rw [hexDecodeString_pair, hp]; rfl
      rw [he]
      constructor
      · intro h; simp at h
      · intro h
        have := h.2 p (by simp)
        rw [hd] at this
        exact absurd this (by simp)
    | some a =>
      cases hq : fromHexChar q with
      | none =>
        have hd := fromHexChar_none hq
        have he : hexDecodeString (p :: q :: rest) = none := by
          rw [hexDecodeString_pair, hp, hq]; rfl
        rw [he]
        constructor
        · intro h; simp at h
        · intro h
          have := h.2 q (by simp)
          rw [hd] at this
          exact absurd this (by simp)
      | some b =>
        have h1 := (fromHexChar_some hp).2.2
        have h2 := (fromHexChar_some hq).2.2
        have he : (hexDecodeString (p :: q :: rest)).isSome = (hexDecodeString rest).isSome := by
          rw [hexDecodeString_pair, hp, hq]
          cases hexDecodeString rest <;> rfl
        rw [he, ih]
        constructor
        · rintro ⟨hl, hall⟩
          refine ⟨hl, ?_⟩
          intro c hc
          rcases List.mem_cons.1 hc with rfl | hc
          · exact h1
          · rcases List.mem_cons.1 hc with rfl | hc
            · exact h2
            · exact hall c hc
        · rintro ⟨hl, hall⟩
          exact ⟨hl, fun c hc => hall c (List.mem_cons_of_mem _ (List.mem_cons_of_mem _ hc))⟩

theorem hexEncode_decode (s : GoString) :
    ∀ d, hexDecodeString s = some d → hexEncodeToString d = s.map lowerByte := by
  induction s using pair_induction with
  | h0 => intro d h; simp [hexDecodeString] at h; subst h; rfl
  | h1 c => intro d h; simp [hexDecodeString] at h
  | h2 p q rest ih =>
    intro d h
    rw [hexDecodeString_pair] at h
    cases hp : fromHexChar p <;> cases hq : fromHexChar q <;>
      cases hr : hexDecodeString rest <;> simp [hp, hq, hr] at h
    subst h
    rename_i a b bytes
    obtain ⟨ha, hta, -⟩ := fromHexChar_some hp
    obtain ⟨hb, htb, -⟩ := fromHexChar_some hq
    have e1 : (a * 16 + b) % 256 / 16 = a := by omega
    have e2 : (a * 16 + b) % 256 % 16 = b := by omega
    simp [hexEncodeToString, e1, e2, hta, htb, ih _ hr]

theorem IsObjectIdHex_iff (s : GoString) :
    IsObjectIdHex s = true ↔ (s.length = 24 ∧ ∀ c ∈ s, isHexDigit c = true) := by
  unfold IsObjectIdHex
  by_cases hl : s.length = 24
  · simp only [hl, bne_self_eq_false, Bool.false_eq_true, if_false, true_and]
    rw [hexDecodeString_isSome_iff]
    simp [hl]
  · simp [hl]

theorem ObjectIdHex_of_IsObjectIdHex {s : GoString} (h : IsObjectIdHex s = true) :
    ∃ id, ObjectIdHex s = some id ∧ id.length = 12 ∧ hexEncodeToString id = s.map lowerByte := by
  obtain ⟨hl, hall⟩ := (IsObjectIdHex_iff s).1 h
  have hsome : (hexDecodeString s).isSome = true :=
    (hexDecodeString_isSome_iff s).2 ⟨by omega, hall⟩
  obtain ⟨d, hd⟩ := Option.isSome_iff_exists.1 hsome
  have hlen := hexDecodeString_length s d hd
  have h12 : d.length = 12 := by omega
  refine ⟨d, ?_, h12, hexEncode_decode s d hd⟩
  simp [ObjectIdHex, hd, h12]

/-- C8. Relation-persist on a string: a string that is not exactly 24 hexadecimal
characters yields an `InvalidIdError`; otherwise the result is no error and the
decoded reference, a valid 12-byte identifier whose canonical hexadecimal
encoding is the string up to letter case. -/
theorem persistRelation_string (s : GoString) (autoSave : Bool) :
    (¬ (s.length = 24 ∧ ∀ c ∈ s, isHexDigit c = true) →
      persistRelation (.str s) autoSave = .err (.invalidIdError "Invalid id`s given")) ∧
    ((s.length = 24 ∧ ∀ c ∈ s, isHexDigit c = true) →
      ∃ id, persistRelation (.str s) autoSave = .ok id ∧ id.Valid = true ∧ id.length = 12 ∧
        id.Hex = s.map lowerByte) := by
  constructor
  · intro h
    have hf : IsObjectIdHex s = false := by
      cases hb : IsObjectIdHex s with
      | false => rfl
      | true => exact absurd ((IsObjectIdHex_iff s).1 hb) h
    simp [persistRelation, hf]
  · intro h
    have ht : IsObjectIdHex s = true := (IsObjectIdHex_iff s).2 h
    obtain ⟨id, hid, h12, henc⟩ := ObjectIdHex_of_IsObjectIdHex ht
    refine ⟨id, ?_, ?_, h12, henc⟩
    · simp [persistRelation, ht, hid]
    · simp [ObjectId.Valid, h12]

/-- C8 at two inputs: the string "xyz" is rejected, and an encoding with mixed
letter case is decoded. -/
theorem persistRelation_string_witness :
    persistRelation (.str Example.malformed) false = .err (.invalidIdError "Invalid id`s given") ∧
    ∃ id, persistRelation (.str Example.hexM) false = .ok id ∧ id.Valid = true ∧ id.length = 12 ∧
      id.Hex = Example.hexM.map lowerByte :=
  ⟨(persistRelation_string Example.malformed false).1 (by decide),
   (persistRelation_string Example.hexM false).2 (by decide)⟩

/-! ## The field loop of `Save` -/

theorem persistRelation_err {v : Value} {a : Bool} {e : Error}
    (h : persistRelation v a = .err e) :
    e = .invalidIdError "Invalid id`s given" ∧ ∃ s, v = .str s ∧ IsObjectIdHex s = false := by
  cases v <;> simp only [persistRelation] at h
  case str s =>
    cases hs : IsObjectIdHex s with
    | false =>
      simp only [hs, Bool.not_false, if_true] at h
      injection h with h
      exact ⟨h.symm, s, rfl, hs⟩
    | true =>
      simp only [hs, Bool.not_true, Bool.false_eq_true, if_false] at h
      split at h <;> cases h
  all_goals (try split at h)
  all_goals cases h

theorem persistSlice_err {a : Bool} {e : Error} :
    ∀ {xs : List Value}, persistSlice xs a = .err e →
      e = .invalidIdError "Invalid id`s given" ∧ ∃ s, Value.str s ∈ xs ∧ IsObjectIdHex s = false
  | [], h => by simp [persistSlice] at h
  | x :: rest, h => by
    rw [persistSlice] at h
    cases hx : persistRelation x a with
    | err e1 =>
      rw [hx] at h
      injection h with h
      subst h
      obtain ⟨he, s, hs, hbad⟩ := persistRelation_err hx
      exact ⟨he, s, by simp [hs], hbad⟩
    | panic p => rw [hx] at h; cases h
    | ok id =>
      rw [hx] at h
      cases hr : persistSlice rest a with
      | ok ids => rw [hr] at h; cases h
      | panic p => rw [hr] at h; cases h
      | err e1 =>
        rw [hr] at h
        injection h with h
        subst h
        obtain ⟨he, s, hs, hbad⟩ := persistSlice_err hr
        exact ⟨he, s, List.mem_cons_of_mem _ hs, hbad⟩

theorem persistSlice_length {a : Bool} :
    ∀ {xs : List Value} {ids : List ObjectId}, persistSlice xs a = .ok ids → ids.length = xs.length
  | [], ids, h => by simp [persistSlice] at h; subst h; rfl
  | x :: rest, ids, h => by
    rw [persistSlice] at h
    cases hx : persistRelation x a with
    | err e1 => rw [hx] at h; cases h
    | panic p => rw [hx] at h; cases h
    | ok id =>
      rw [hx] at h
      cases hr : persistSlice rest a with
      | err e1 => rw [hr] at h; cases h
      | panic p => rw [hr] at h; cases h
      | ok ids1 =>
        rw [hr] at h
        injection h with h
        subst h
        simp [persistSlice_length hr]

theorem persistRelation_ok_valid {v : Value} {a : Bool} {id : ObjectId}
    (h : persistRelation v a = .ok id) : id.Valid = true := by
  cases v <;> simp only [persistRelation] at h
  case doc d =>
    split at h
    · cases h
    · injection h with h; subst h; simp_all [Document.GetId]
  case objectId i =>
    split at h
    · cases h
    · injection h with h; subst h; simp_all
  case str s =>
    cases ht : IsObjectIdHex s with
    | false => simp only [ht, Bool.not_false, if_true] at h; cases h
    | true =>
      simp only [ht, Bool.not_true, Bool.false_eq_true, if_false] at h
      obtain ⟨id2, hid2, h12, -⟩ := ObjectIdHex_of_IsObjectIdHex ht
      rw [hid2] at h
      injection h with h
      subst h
      simp [ObjectId.Valid, h12]
  all_goals cases h

theorem persistSlice_valid {a : Bool} :
    ∀ {xs : List Value} {ids : List ObjectId}, persistSlice xs a = .ok ids →
      ∀ id ∈ ids, ObjectId.Valid id = true
  | [], ids, h => by simp [persistSlice] at h; subst h; simp
  | x :: rest, ids, h => by
    rw [persistSlice] at h
    cases hx : persistRelation x a with
    | err e1 => rw [hx] at h; cases h
    | panic p => rw [hx] at h; cases h
    | ok id =>
      rw [hx] at h
      cases hr : persistSlice rest a with
      | err e1 => rw [hr] at h; cases h
      | panic p => rw [hr] at h; cases h
      | ok ids1 =>
        rw [hr] at h
        injection h with h
        subst h
        intro i hi
        rcases List.mem_cons.1 hi with rfl | hi
        · exact persistRelation_ok_valid hx
        · exact persistSlice_valid hr i hi

/-- The references of a sequence of saved children are their identifiers, in order. -/
theorem persistSlice_docs (a : Bool) :
    ∀ (children : List Document), (∀ c ∈ children, c.Id.Valid = true) →
      persistSlice (children.map Value.doc) a = .ok (children.map Document.Id)
  | [], _ => rfl
  | c :: rest, h => by
    have hc : c.Id.Valid = true := h c (by simp)
    have hr := persistSlice_docs a rest (fun x hx => h x (List.mem_cons_of_mem _ hx))
    simp [persistSlice, persistRelation, Document.GetId, hc, hr]

theorem saveField_next {f f1 : Field} (h : saveField f = .next f1) :
    f1 = initUnset f ∧ (0 < f.1.modelTag.length → f.2 = .nil) := by
  obtain ⟨decl, v⟩ := f
  unfold saveField at h
  unfold initUnset
  by_cases hm : decl.modelTag.length > 0
  · cases v <;> simp only [hm, if_true, sliceElements] at h ⊢
    · split at h <;> injection h with h <;> subst h <;> simp_all
    all_goals (try split at h)
    all_goals (try split at h)
    all_goals cases h
  · simp only [hm, if_false] at h
    injection h with h
    subst h
    cases v <;> simp [hm]

/-- What `Save` writes into a field it buffers. -/
theorem saveField_buffered {f f1 : Field} {old : Value} (h : saveField f = .buffered f1 old) :
    old = f.2 ∧ f1.1 = f.1 ∧ initUnset f = f ∧ 0 < f.1.modelTag.length ∧
    ((∃ elems ids a, sliceElements f.2 = some elems ∧ relationOf f.1.relationTag = REL_1N ∧
        persistSlice elems a = .ok ids ∧ f1.2 = .idSlice ids) ∨
     (∃ id a, sliceElements f.2 = none ∧ relationOf f.1.relationTag = REL_11 ∧
        persistRelation f.2 a = .ok id ∧ f1.2 = .objectId id)) := by
  obtain ⟨decl, v⟩ := f
  unfold saveField at h
  unfold initUnset
  by_cases hm : decl.modelTag.length > 0
  · cases v <;> simp only [hm, if_true, sliceElements] at h
    · split at h <;> cases h
    rotate_right
    · cases h
    all_goals
      split at h
      · cases h
      · rename_i hrel
        split at h
        · cases h
        · cases h
        · rename_i idBuffer hp
          injection h with h1 h2
          subst h1 h2
          refine ⟨rfl, rfl, rfl, hm, ?_⟩
          simp only [ne_eq, Decidable.not_not] at hrel
          first
            | exact Or.inl ⟨_, _, _, rfl, hrel, hp, rfl⟩
            | exact Or.inr ⟨_, _, rfl, hrel, hp, rfl⟩
  · simp only [hm, if_false] at h
    cases h

theorem saveField_ret {f : Field} {e : Error} (h : saveField f = .ret e) :
    e = .invalidIdError "Invalid id`s given" ∧ holdsMalformedString f := by
  obtain ⟨decl, v⟩ := f
  unfold saveField at h
  unfold holdsMalformedString
  by_cases hm : decl.modelTag.length > 0
  · cases v <;> simp only [hm, if_true, sliceElements] at h
    · split at h <;> cases h
    rotate_right
    · cases h
    all_goals
      split at h
      · cases h
      · split at h
        · rename_i e1 hp
          injection h with h
          subst h
          first
            | (obtain ⟨he, s, hs, hbad⟩ := persistRelation_err hp
               cases hs
               exact ⟨he, Or.inl ⟨_, rfl, hbad⟩⟩)
            | (obtain ⟨he, s, hs, hbad⟩ := persistRelation_err hp
               cases hs)
            | (obtain ⟨he, s, hs, hbad⟩ := persistSlice_err hp
               first
                 | exact ⟨he, Or.inr ⟨_, s, rfl, hs, hbad⟩⟩
                 | (simp at hs))
        · cases h
        · cases h
  · simp only [hm, if_false] at h
    cases h

/-- A relation field holding a record without a valid identifier makes the loop
body panic. -/
theorem saveField_unsaved_child {f : Field} {c : Document} (hm : 0 < f.1.modelTag.length)
    (hv : f.2 = .doc c) (hc : c.Id.Valid = false) :
    saveField f = .panic .relationMustBe11 ∨ saveField f = .panic .childNotSaved := by
  obtain ⟨decl, v⟩ := f
  simp only at hv hm
  subst hv
  unfold saveField
  simp only [hm, if_true, sliceElements, persistRelation, Document.GetId, hc]
  by_cases hr : relationOf decl.relationTag = REL_11
  · right; simp [hr]
  · left; simp [hr]

theorem setFieldValue_append (pre : List Field) (f : Field) (rest : List Field) (v : Value) :
    setFieldValue (pre ++ f :: rest) pre.length v = pre ++ (f.1, v) :: rest := by
  induction pre with
  | nil => rfl
  | cons g pre ih => simp [setFieldValue, ih]

/-- When the field loop runs to its end, restoring the buffered fields gives back
every field as it was, except that unset one-to-many fields stay initialised. -/
theorem relationLoop_restore (fs : List Field) :
    ∀ (i : Nat) (pre : List Field), pre.length = i → (relationLoop i fs).exit = .finished →
      restoreFields (relationLoop i fs).bufferRegistry (pre ++ (relationLoop i fs).fields) =
        pre ++ fs.map initUnset := by
  induction fs with
  | nil => intro i pre _ _; simp [relationLoop, restoreFields]
  | cons f rest ih =>
    intro i pre hpre hfin
    rw [relationLoop] at hfin ⊢
    cases hf : saveField f with
    | next f1 =>
      rw [hf] at hfin
      simp only [hf] at hfin ⊢
      have h1 := (saveField_next hf).1
      have := ih (i + 1) (pre ++ [f1]) (by simp [hpre]) hfin
      simpa [h1] using this
    | buffered f1 old =>
      simp only [hf] at hfin ⊢
      obtain ⟨hold, hdecl, hunset, -, -⟩ := saveField_buffered hf
      have := ih (i + 1) (pre ++ [f]) (by simp [hpre]) hfin
      rw [restoreFields, ← hpre, setFieldValue_append, hdecl, hold]
      simpa [hunset, hpre] using this
    | ret e => simp only [hf] at hfin; cases hfin
    | panic p => simp only [hf] at hfin; cases hfin

/-- The field loop returns an error only for a malformed reference string. -/
theorem relationLoop_returned (fs : List Field) :
    ∀ (i : Nat) (e : Error), (relationLoop i fs).exit = .returned e →
      e = .invalidIdError "Invalid id`s given" ∧ ∃ g ∈ fs, holdsMalformedString g := by
  induction fs with
  | nil => intro i e h; simp [relationLoop] at h
  | cons f rest ih =>
    intro i e h
    rw [relationLoop] at h
    cases hf : saveField f with
    | next f1 =>
      simp only [hf] at h
      obtain ⟨he, g, hg, hbad⟩ := ih _ _ h
      exact ⟨he, g, List.mem_cons_of_mem _ hg, hbad⟩
    | buffered f1 old =>
      simp only [hf] at h
      obtain ⟨he, g, hg, hbad⟩ := ih _ _ h
      exact ⟨he, g, List.mem_cons_of_mem _ hg, hbad⟩
    | ret e1 =>
      simp only [hf] at h
      injection h with h
      subst h
      obtain ⟨he, hbad⟩ := saveField_ret hf
      exact ⟨he, f, by simp, hbad⟩
    | panic p => simp only [hf] at h; cases h

/-- A field on which the loop body panics stops the loop: it ends in a panic, or
it has already returned the error of an earlier field. -/
theorem relationLoop_panic_at (pre : List Field) (f : Field) (post : List Field) (p : Panic)
    (hf : saveField f = .panic p) :
    ∀ i, (∃ p1, (relationLoop i (pre ++ f :: post)).exit = .panicked p1) ∨
      ((relationLoop i (pre ++ f :: post)).exit = .returned (.invalidIdError "Invalid id`s given") ∧
        ∃ g ∈ pre, holdsMalformedString g) := by
  induction pre with
  | nil =>
    intro i
    left
    exact ⟨p, by simp [relationLoop, hf]⟩
  | cons g pre ih =>
    intro i
    rw [List.cons_append, relationLoop]
    cases hg : saveField g with
    | next g1 =>
      simp only [hg]
      rcases ih (i + 1) with h | ⟨h, g2, hg2, hbad⟩
      · exact Or.inl h
      · exact Or.inr ⟨h, g2, List.mem_cons_of_mem _ hg2, hbad⟩
    | buffered g1 old =>
      simp only [hg]
      rcases ih (i + 1) with h | ⟨h, g2, hg2, hbad⟩
      · exact Or.inl h
      · exact Or.inr ⟨h, g2, List.mem_cons_of_mem _ hg2, hbad⟩
    | ret e =>
      simp only [hg]
      obtain ⟨he, hbad⟩ := saveField_ret hg
      exact Or.inr ⟨by rw [he], g, by simp, hbad⟩
    | panic p1 =>
      simp only [hg]
      exact Or.inl ⟨p1, rfl⟩

/-- The fields the loop leaves behind correspond one by one to the original
fields: each is the result of the loop body on its original. -/
theorem relationLoop_fields (fs : List Field) :
    ∀ (i : Nat), (relationLoop i fs).exit = .finished →
      List.Forall₂ (fun f g => saveField f = .next g ∨ saveField f = .buffered g f.2)
        fs (relationLoop i fs).fields := by
  induction fs with
  | nil => intro i _; simp [relationLoop]
  | cons f rest ih =>
    intro i hfin
    rw [relationLoop] at hfin ⊢
    cases hf : saveField f with
    | next f1 =>
      simp only [hf] at hfin ⊢
      exact List.Forall₂.cons (Or.inl hf) (ih _ hfin)
    | buffered f1 old =>
      simp only [hf] at hfin ⊢
      obtain ⟨hold, -⟩ := saveField_buffered hf
      exact List.Forall₂.cons (Or.inr (by rw [hf, hold])) (ih _ hfin)
    | ret e => simp only [hf] at hfin; cases hfin
    | panic p => simp only [hf] at hfin; cases hfin

/-- Without relation fields the loop changes nothing and buffers nothing. -/
theorem relationLoop_no_relations (fs : List Field) (h : ∀ f ∈ fs, f.1.modelTag = "") :
    ∀ i, relationLoop i fs = ⟨fs, [], .finished⟩ := by
  induction fs with
  | nil => intro i; rfl
  | cons f rest ih =>
    intro i
    have hf : saveField f = .next f := by
      have := h f (by simp)
      simp [saveField, this]
    rw [relationLoop]
    simp only [hf, ih (fun g hg => h g (List.mem_cons_of_mem _ hg))]

/-! ## `Save` as a whole -/

/-- The two ways `Save` can go: it stops before the store (a panic, or the
`InvalidIdError` of the field loop) without issuing a write, or the field loop
finishes and exactly one write is issued, after which the buffered fields are
restored. -/
theorem Save_cases (env : Env) (d : Document) :
    ((Save env d).writes = [] ∧
      ((∃ p, (Save env d).outcome = .panicked p) ∨
        ((Save env d).outcome = .returned (some (.invalidIdError "Invalid id`s given")) ∧
          (relationLoop 0 d.fields).exit = .returned (.invalidIdError "Invalid id`s given")))) ∨
    ((relationLoop 0 d.fields).exit = .finished ∧ d.bound ∧
      ∃ op e, (Save env d).writes = [op] ∧ (Save env d).outcome = .returned e ∧
        (∀ m, e ≠ some (.invalidIdError m)) ∧
        op.document.fields = (relationLoop 0 d.fields).fields ∧
        (Save env d).document.fields = d.fields.map initUnset ∧
        (Save env d).document.typeName = d.typeName ∧
        (Save env d).document.wiring = d.wiring) := by
  obtain ⟨n, ⟨wd, wc, wn⟩, id, ca, ua, fs⟩ := d
  unfold Save
  cases wc with
  | none => exact Or.inl ⟨rfl, Or.inl ⟨_, rfl⟩⟩
  | some c =>
    simp only [Document.wiring]
    by_cases hw : wd = false ∨ wn = false
    · rw [if_pos hw]
      exact Or.inl ⟨rfl, Or.inl ⟨_, rfl⟩⟩
    · rw [if_neg hw]
      have hwd : wd = true := by cases wd <;> simp_all
      have hwn : wn = true := by cases wn <;> simp_all
      subst hwd hwn
      simp only [Document.fields]
      cases hexit : (relationLoop 0 fs).exit with
      | panicked p => exact Or.inl ⟨rfl, Or.inl ⟨_, rfl⟩⟩
      | returned e =>
        obtain ⟨he, -⟩ := relationLoop_returned fs 0 e hexit
        subst he
        exact Or.inl ⟨rfl, Or.inr ⟨rfl, rfl⟩⟩
      | finished =>
        right
        have hres := relationLoop_restore fs 0 [] rfl hexit
        simp only [List.nil_append] at hres
        refine ⟨rfl, ⟨rfl, rfl, rfl⟩, ?_⟩
        simp only [Document.setFields, Document.Id, Document.typeName, Document.wiring,
          Document.CreatedAt, Document.UpdatedAt, Document.fields, Document.SetCreatedAt,
          Document.SetUpdatedAt, Document.SetId]
        by_cases hid : id.length = 0
        · rw [if_pos hid]
          refine ⟨_, _, rfl, rfl, ?_, rfl, hres, rfl, rfl⟩
          intro m
          cases env.write _ with
          | none => simp
          | some e1 => by_cases hd : IsDup e1 = true <;> simp [hd]
        · rw [if_neg hid]
          refine ⟨_, _, rfl, rfl, ?_, rfl, hres, rfl, rfl⟩
          intro m
          cases env.write _ with
          | none => simp
          | some e1 => by_cases hd : IsDup e1 = true <;> simp [hd]


/-- When the record already has an identifier and the field loop finishes, the
error of the upsert decides what `Save` returns: a duplicate-key failure is
dropped (the translated error is assigned to the local `errs` only), any other
failure is returned as it is. -/
theorem Save_upsert_error (env : Env) (d : Document) (e : DriverError) (hb : d.bound)
    (hid : d.Id.length ≠ 0) (hfin : (relationLoop 0 d.fields).exit = .finished)
    (hw : ∀ op, env.write op = some e) :
    (Save env d).outcome = .returned (if IsDup e then none else some (.driver e)) := by
  obtain ⟨n, ⟨wd, wc, wn⟩, id, ca, ua, fs⟩ := d
  obtain ⟨h1, h2, h3⟩ := hb
  simp only [Document.wiring] at h1 h2 h3
  subst h1 h3
  obtain ⟨c, rfl⟩ := Option.isSome_iff_exists.1 h2
  simp only [Document.fields, Document.Id] at hfin hid
  simp [Save, Document.wiring, Document.fields, hfin, Document.setFields, Document.Id, hid,
    Document.SetUpdatedAt, Document.typeName, Document.CreatedAt, Document.UpdatedAt, hw]

/-- C2 (code defect). A bound record that already has an identifier is saved
while the store answers the upsert with a duplicate-key failure: `Save` returns
nil, not a `DuplicateError`. The same store answer on the insert path (record
without identifier) is translated into a `DuplicateError`. -/
theorem Save_upsert_duplicate_returns_nil :
    (Save Example.envDup (Example.team .nil .nil .nil)).outcome = .returned none ∧
    (∃ op, (Save Example.envDup (Example.team .nil .nil .nil)).writes = [op] ∧
      Example.envDup.write op = some (.failure true 11000) ∧
      IsDup (.failure true 11000) = true) ∧
    (Save Example.envDup (Example.person .nil .nil)).outcome =
      .returned (some (.duplicateError "Duplicate key")) :=
  ⟨rfl, ⟨_, rfl, rfl, rfl⟩, rfl⟩

/-- C3 (as stated, refuted). Two saves that return to the caller and leave a
relation field with a value it did not hold before: an unset one-to-many field
is left holding an empty sequence of references after a successful save, and a
save that returns `InvalidIdError` leaves the earlier relation fields holding
references instead of the original objects. -/
theorem Save_relation_fields_changed :
    ((Save Example.envM (Example.person .nil .nil)).outcome = .returned none ∧
      (Save Example.envM (Example.person .nil .nil)).document.fields =
        [(Example.managerDecl, .nil), (Example.reportsDecl, .idSlice [])] ∧
      (Save Example.envM (Example.person .nil .nil)).document.fields ≠
        (Example.person .nil .nil).fields) ∧
    ((Save Example.envE (Example.team (.doc (Example.child Example.idM))
        (.docSlice [Example.child Example.idM]) (.str Example.malformed))).outcome =
        .returned (some (.invalidIdError "Invalid id`s given")) ∧
      (Save Example.envE (Example.team (.doc (Example.child Example.idM))
        (.docSlice [Example.child Example.idM]) (.str Example.malformed))).document.fields =
        [(Example.managerDecl, .objectId Example.idM), (Example.reportsDecl, .idSlice [Example.idM]),
         (Example.buddyDecl, .str Example.malformed)] ∧
      (Save Example.envE (Example.team (.doc (Example.child Example.idM))
        (.docSlice [Example.child Example.idM]) (.str Example.malformed))).document.fields ≠
        (Example.team (.doc (Example.child Example.idM))
          (.docSlice [Example.child Example.idM]) (.str Example.malformed)).fields) := by
  refine ⟨⟨rfl, rfl, ?_⟩, rfl, rfl, ?_⟩
  · intro h
    have h2 : [(Example.managerDecl, Value.nil), (Example.reportsDecl, Value.idSlice [])] =
        [(Example.managerDecl, Value.nil), (Example.reportsDecl, Value.nil)] := h
    simp at h2
  · intro h
    have h2 : [(Example.managerDecl, Value.objectId Example.idM),
          (Example.reportsDecl, Value.idSlice [Example.idM]),
          (Example.buddyDecl, Value.str Example.malformed)] =
        [(Example.managerDecl, Value.doc (Example.child Example.idM)),
          (Example.reportsDecl, Value.docSlice [Example.child Example.idM]),
          (Example.buddyDecl, Value.str Example.malformed)] := h
    simp at h2

/-- C3 (amended). Whenever `Save` returns nil, a store error or a
`DuplicateError`, every field holds the value it held before the call, except
that an unset one-to-many relation field holds an empty sequence of references;
the type and the wiring of the record are unchanged. -/
theorem Save_restores_fields (env : Env) (d : Document) (e : Option Error)
    (hret : (Save env d).outcome = .returned e) (hne : ∀ m, e ≠ some (.invalidIdError m)) :
    (Save env d).document.fields = d.fields.map initUnset ∧
    (Save env d).document.typeName = d.typeName ∧
    (Save env d).document.wiring = d.wiring := by
  rcases Save_cases env d with ⟨-, ⟨p, hp⟩ | ⟨hr, -⟩⟩ | ⟨-, -, op, e1, -, -, -, -, h1, h2, h3⟩
  · rw [hp] at hret; cases hret
  · rw [hr] at hret
    injection hret with hret
    exact absurd hret.symm (hne _)
  · exact ⟨h1, h2, h3⟩

/-- C3 (amended) at a record with a one-to-one child, a sequence of two children
and an unset field, saved while the store reports a failure. -/
theorem Save_restores_fields_witness :
    (Save ⟨7, Example.idX, fun _ => some (.failure false 3)⟩
      (Example.team (.doc (Example.child Example.idM))
        (.docSlice [Example.child Example.idM, Example.child Example.idX]) .nil)).outcome =
      .returned (some (.driver (.failure false 3))) ∧
    (Save ⟨7, Example.idX, fun _ => some (.failure false 3)⟩
      (Example.team (.doc (Example.child Example.idM))
        (.docSlice [Example.child Example.idM, Example.child Example.idX]) .nil)).document.fields =
      (Example.team (.doc (Example.child Example.idM))
        (.docSlice [Example.child Example.idM, Example.child Example.idX]) .nil).fields.map
          initUnset :=
  ⟨rfl, (Save_restores_fields ⟨7, Example.idX, fun _ => some (.failure false 3)⟩
      (Example.team (.doc (Example.child Example.idM))
        (.docSlice [Example.child Example.idM, Example.child Example.idX]) .nil)
      (some (.driver (.failure false 3))) rfl (fun m h => by cases h)).1⟩

/-- C5. A bound record without identifier and without relation fields: the
first `Save` assigns the generated, valid, non-empty identifier and sets both
timestamps to the same instant; a second `Save` changes the update timestamp
only. -/
theorem Save_first_and_second (env1 env2 : Env) (d : Document) (hb : d.bound)
    (hid : d.Id = []) (hnorel : ∀ f ∈ d.fields, f.1.modelTag = "")
    (hnew : env1.newObjectId.Valid = true) :
    (∃ e, (Save env1 d).outcome = .returned e) ∧
    (Save env1 d).document.Id = env1.newObjectId ∧
    (Save env1 d).document.Id ≠ [] ∧
    (Save env1 d).document.Id.Valid = true ∧
    (Save env1 d).document.CreatedAt = env1.now ∧
    (Save env1 d).document.UpdatedAt = env1.now ∧
    (Save env1 d).document.fields = d.fields ∧
    (∃ e, (Save env2 (Save env1 d).document).outcome = .returned e) ∧
    (Save env2 (Save env1 d).document).document =
      (Save env1 d).document.SetUpdatedAt env2.now ∧
    (Save env2 (Save env1 d).document).document.Id = (Save env1 d).document.Id ∧
    (Save env2 (Save env1 d).document).document.CreatedAt = (Save env1 d).document.CreatedAt ∧
    (Save env2 (Save env1 d).document).document.UpdatedAt = env2.now := by
  obtain ⟨n, ⟨wd, wc, wn⟩, id, ca, ua, fs⟩ := d
  obtain ⟨h1, h2, h3⟩ := hb
  simp only [Document.wiring] at h1 h2 h3
  subst h1 h3
  obtain ⟨c, rfl⟩ := Option.isSome_iff_exists.1 h2
  simp only [Document.Id] at hid
  subst hid
  simp only [Document.fields] at hnorel
  have hloop := relationLoop_no_relations fs hnorel 0
  have hne : env1.newObjectId ≠ [] := by
    intro h
    rw [h] at hnew
    simp [ObjectId.Valid] at hnew
  have hlen : env1.newObjectId.length ≠ 0 := by
    intro h
    exact hne (List.length_eq_zero.1 h)
  have hS1 : Save env1 (.mk n ⟨true, some c, true⟩ [] ca ua fs) =
      ⟨.returned (match env1.write (.insert c (.mk n ⟨true, some c, true⟩ env1.newObjectId
          env1.now env1.now fs)) with
        | none => none
        | some e => if IsDup e then some (.duplicateError "Duplicate key") else some (.driver e)),
       .mk n ⟨true, some c, true⟩ env1.newObjectId env1.now env1.now fs,
       [.insert c (.mk n ⟨true, some c, true⟩ env1.newObjectId env1.now env1.now fs)]⟩ := by
    simp [Save, Document.wiring, Document.fields, hloop, Document.setFields, Document.Id,
      Document.SetUpdatedAt, Document.SetCreatedAt, Document.SetId, Document.typeName,
      Document.CreatedAt, Document.UpdatedAt, restoreFields]
  have hS2 : Save env2 (.mk n ⟨true, some c, true⟩ env1.newObjectId env1.now env1.now fs) =
      ⟨.returned (match env2.write (.upsertId c env1.newObjectId
          (.mk n ⟨true, some c, true⟩ env1.newObjectId env1.now env2.now fs)) with
        | none => none
        | some errs => if IsDup errs then none else some (.driver errs)),
       .mk n ⟨true, some c, true⟩ env1.newObjectId env1.now env2.now fs,
       [.upsertId c env1.newObjectId
          (.mk n ⟨true, some c, true⟩ env1.newObjectId env1.now env2.now fs)]⟩ := by
    simp [Save, Document.wiring, Document.fields, hloop, Document.setFields, Document.Id,
      Document.SetUpdatedAt, Document.typeName, hlen,
      Document.CreatedAt, Document.UpdatedAt, restoreFields]
  rw [hS1]
  simp only [hS2]
  exact ⟨⟨_, rfl⟩, rfl, hne, hnew, rfl, rfl, rfl, ⟨_, rfl⟩, rfl, rfl, rfl, rfl⟩

/-- C5 at a new record with one plain field, saved at instants 10 and 20. -/
theorem Save_first_and_second_witness :
    (Save Example.envM Example.user).document.Id = Example.idM ∧
    (Save Example.envE (Save Example.envM Example.user).document).document =
      (Save Example.envM Example.user).document.SetUpdatedAt 20 :=
  ⟨(Save_first_and_second Example.envM Example.envE Example.user ⟨rfl, rfl, rfl⟩ rfl
      (fun f hf => by rw [List.mem_singleton.1 hf]; rfl) rfl).2.1,
   (Save_first_and_second Example.envM Example.envE Example.user ⟨rfl, rfl, rfl⟩ rfl
      (fun f hf => by rw [List.mem_singleton.1 hf]; rfl) rfl).2.2.2.2.2.2.2.2.1⟩


/-- The element paired with a given position by a position-wise relation. -/
theorem forall₂_at_append {α β : Type} {R : α → β → Prop} :
    ∀ (pre : List α) (f : α) (post : List α) (l : List β),
      List.Forall₂ R (pre ++ f :: post) l → ∃ g, l[pre.length]? = some g ∧ R f g
  | [], f, post, l, h => by
    cases h with
    | cons hr _ => exact ⟨_, by simp, hr⟩
  | x :: pre, f, post, l, h => by
    cases h with
    | cons _ ht =>
      obtain ⟨g, hg, hr⟩ := forall₂_at_append pre f post _ ht
      exact ⟨g, by simpa using hg, hr⟩

theorem getElem?_at_append {α : Type} (pre : List α) (f : α) (post : List α) (n : Nat)
    (h : n = pre.length) : (pre ++ f :: post)[n]? = some f := by
  subst h
  induction pre with
  | nil => simp
  | cons x pre ih => simpa using ih

/-- A one-to-many relation field holding saved children: the document handed to
the store holds their identifiers in order, and when `Save` gets as far as the
store the field holds the children again afterwards. -/
theorem Save_one_to_many_children (env : Env) (d : Document) (pre post : List Field)
    (decl : FieldDecl) (children : List Document)
    (hd : d.fields = pre ++ (decl, .docSlice children) :: post)
    (hm : 0 < decl.modelTag.length) (hr : decl.relationTag = REL_1N)
    (hc : ∀ c ∈ children, c.Id.Valid = true) :
    (∀ op ∈ (Save env d).writes,
      op.document.fields[pre.length]? = some (decl, .idSlice (children.map Document.Id)) ∧
      (children.map Document.Id).length = children.length) ∧
    (∀ e, (Save env d).outcome = .returned e → (∀ m, e ≠ some (.invalidIdError m)) →
      (Save env d).document.fields[pre.length]? = some (decl, .docSlice children)) := by
  have hsave : saveField (decl, .docSlice children) =
      .buffered (decl, .idSlice (children.map Document.Id)) (.docSlice children) := by
    have h1n : relationOf REL_1N = REL_1N := by decide
    simp [saveField, hm, sliceElements, hr, h1n, persistSlice_docs _ children hc]
  constructor
  · intro op hop
    rcases Save_cases env d with ⟨hw, -⟩ | ⟨hfin, -, op1, e1, hw, -, -, hfields, -⟩
    · rw [hw] at hop; cases hop
    · rw [hw] at hop
      rw [List.mem_singleton.1 hop, hfields]
      have hall := relationLoop_fields d.fields 0 hfin
      rw [hd] at hall
      obtain ⟨g, hg, hrel⟩ := forall₂_at_append pre _ post _ hall
      rw [hsave] at hrel
      rcases hrel with hrel | hrel
      · cases hrel
      · injection hrel with hrel _
        rw [hd, hg, hrel]
        simp
  · intro e hret hne
    rw [(Save_restores_fields env d e hret hne).1, hd, List.map_append, List.map_cons]
    exact getElem?_at_append _ _ _ _ (by simp)

/-- C6 (code defect). A record whose one-to-many field holds two saved children
and whose later one-to-one field holds the malformed string "xyz": `Save`
returns `InvalidIdError` without a write, and the one-to-many field is left
holding the two references instead of the two child objects. -/
theorem Save_invalid_id_leaves_references :
    (Save Example.envE (Example.team .nil
      (.docSlice [Example.child Example.idM, Example.child Example.idX])
      (.str Example.malformed))).outcome =
      .returned (some (.invalidIdError "Invalid id`s given")) ∧
    (Save Example.envE (Example.team .nil
      (.docSlice [Example.child Example.idM, Example.child Example.idX])
      (.str Example.malformed))).writes = [] ∧
    (fieldByName (Save Example.envE (Example.team .nil
      (.docSlice [Example.child Example.idM, Example.child Example.idX])
      (.str Example.malformed))).document.fields "Reports").map Prod.snd =
      some (.idSlice [Example.idM, Example.idX]) :=
  ⟨rfl, rfl, rfl⟩

/-- C7 (as stated, refuted). A record whose one-to-one field holds an unsaved
child, declared after a field holding the malformed string "xyz": `Save` returns
`InvalidIdError` to the caller, it does not fail fatally. -/
theorem Save_unsaved_child_returns_error :
    (Save Example.envE (Example.team (.str Example.malformed) .nil
      (.doc (Example.child [])))).outcome =
      .returned (some (.invalidIdError "Invalid id`s given")) ∧
    ∀ p, (Save Example.envE (Example.team (.str Example.malformed) .nil
      (.doc (Example.child [])))).outcome ≠ .panicked p :=
  ⟨rfl, fun p h => by
    have h2 : Outcome.returned (some (.invalidIdError "Invalid id`s given")) = .panicked p := h
    cases h2⟩

/-- C7 (amended). A record with a relation field, one-to-one in particular,
holding a child without a valid identifier: `Save` issues no insert and no
upsert, and it either fails fatally or returns the `InvalidIdError` of a
relation field declared before it that holds a malformed reference string. -/
theorem Save_unsaved_child (env : Env) (d : Document) (pre post : List Field) (f : Field)
    (c : Document) (hd : d.fields = pre ++ f :: post) (hm : 0 < f.1.modelTag.length)
    (hv : f.2 = .doc c) (hc : c.Id.Valid = false) :
    (Save env d).writes = [] ∧
    ((∃ p, (Save env d).outcome = .panicked p) ∨
      ((Save env d).outcome = .returned (some (.invalidIdError "Invalid id`s given")) ∧
        ∃ g ∈ pre, holdsMalformedString g)) := by
  have hp : ∃ p, saveField f = .panic p := by
    rcases saveField_unsaved_child hm hv hc with h | h
    · exact ⟨_, h⟩
    · exact ⟨_, h⟩
  obtain ⟨p, hp⟩ := hp
  have hloop := relationLoop_panic_at pre f post p hp 0
  rw [← hd] at hloop
  rcases Save_cases env d with ⟨hw, ⟨p1, h1⟩ | ⟨h1, hexit⟩⟩ | ⟨hfin, -⟩
  · exact ⟨hw, Or.inl ⟨p1, h1⟩⟩
  · refine ⟨hw, Or.inr ⟨h1, ?_⟩⟩
    rcases hloop with ⟨p1, h2⟩ | ⟨-, hg⟩
    · rw [h2] at hexit; cases hexit
    · exact hg
  · rcases hloop with ⟨p1, h2⟩ | ⟨h2, -⟩
    · rw [h2] at hfin; cases hfin
    · rw [h2] at hfin; cases hfin

/-- C7 (amended) at a record whose first relation field holds an unsaved child:
no write is issued, and as nothing is declared before the field the save fails
fatally. -/
theorem Save_unsaved_child_witness :
    (Save Example.envE (Example.team (.doc (Example.child [])) .nil .nil)).writes = [] ∧
    ((∃ p, (Save Example.envE (Example.team (.doc (Example.child [])) .nil .nil)).outcome =
        .panicked p) ∨
      ((Save Example.envE (Example.team (.doc (Example.child [])) .nil .nil)).outcome =
          .returned (some (.invalidIdError "Invalid id`s given")) ∧
        ∃ g ∈ ([] : List Field), holdsMalformedString g)) :=
  Save_unsaved_child Example.envE (Example.team (.doc (Example.child [])) .nil .nil) []
    [(Example.reportsDecl, .nil), (Example.buddyDecl, .nil)]
    (Example.managerDecl, .doc (Example.child [])) (Example.child []) rfl (by decide) rfl rfl

theorem persistRelation_ok_reference {v : Value} {a : Bool} {id : ObjectId}
    (h : persistRelation v a = .ok id) : referenceOf v = some id := by
  cases v <;> simp only [persistRelation] at h
  case doc d =>
    split at h
    · cases h
    · injection h with h; subst h; rfl
  case objectId i =>
    split at h
    · cases h
    · injection h with h; subst h; rfl
  case str s =>
    split at h
    · cases h
    · split at h
      · rename_i id1 hid
        injection h with h
        subst h
        exact hid
      · cases h
  all_goals cases h

/-- The references `Save` collects from a sequence are those of its elements,
one for each element and in their order. -/
theorem persistSlice_references {a : Bool} :
    ∀ {xs : List Value} {ids : List ObjectId}, persistSlice xs a = .ok ids →
      List.Forall₂ (fun x id => referenceOf x = some id) xs ids
  | [], ids, h => by simp [persistSlice] at h; subst h; exact List.Forall₂.nil
  | x :: rest, ids, h => by
    rw [persistSlice] at h
    cases hx : persistRelation x a with
    | err e1 => rw [hx] at h; cases h
    | panic p => rw [hx] at h; cases h
    | ok id =>
      rw [hx] at h
      cases hr : persistSlice rest a with
      | err e1 => rw [hr] at h; cases h
      | panic p => rw [hr] at h; cases h
      | ok ids1 =>
        rw [hr] at h
        injection h with h
        subst h
        exact List.Forall₂.cons (persistRelation_ok_reference hx) (persistSlice_references hr)

/-- C10. In every document `Save` hands to the store, each field declared as a
one-to-many relation holds a sequence of valid references: the empty sequence
when the in-memory field was unset, and otherwise one reference for each
element of the in-memory sequence, in order, each the reference of its element
(so the empty sequence for an empty one); the fields are the declared ones,
position by position. -/
theorem Save_stores_reference_sequences (env : Env) (d : Document) (op : WriteOp)
    (hop : op ∈ (Save env d).writes) :
    List.Forall₂
      (fun f g => g.1 = f.1 ∧
        (0 < f.1.modelTag.length → f.1.relationTag = REL_1N →
          ∃ ids, g.2 = .idSlice ids ∧ (∀ id ∈ ids, ObjectId.Valid id = true) ∧
            ((f.2 = .nil ∧ ids = []) ∨
              ∃ elems, sliceElements f.2 = some elems ∧
                List.Forall₂ (fun x id => referenceOf x = some id) elems ids)))
      d.fields op.document.fields := by
  rcases Save_cases env d with ⟨hw, -⟩ | ⟨hfin, -, op1, e1, hw, -, -, hfields, -⟩
  · rw [hw] at hop; cases hop
  · rw [hw] at hop
    rw [List.mem_singleton.1 hop, hfields]
    refine (relationLoop_fields d.fields 0 hfin).imp ?_
    intro f g hfg
    have h1n : relationOf REL_1N = REL_1N := by decide
    have hne : REL_1N ≠ REL_11 := by decide
    rcases hfg with hnext | hbuf
    · obtain ⟨hg, hnil⟩ := saveField_next hnext
      subst hg
      refine ⟨?_, ?_⟩
      · unfold initUnset; split <;> [split; skip] <;> rfl
      · intro hm hr
        have hv := hnil hm
        refine ⟨[], ?_, by simp, Or.inl ⟨hv, rfl⟩⟩
        obtain ⟨decl, v⟩ := f
        simp only at hv hm hr
        subst hv
        simp [initUnset, hm, hr, h1n]
    · obtain ⟨-, hdecl, -, -, hcase⟩ := saveField_buffered hbuf
      refine ⟨hdecl, ?_⟩
      intro hm hr
      rcases hcase with ⟨elems, ids, a, hel, -, hps, hg⟩ | ⟨id, a, -, h11, -⟩
      · exact ⟨ids, hg, persistSlice_valid hps, Or.inr ⟨elems, hel, persistSlice_references hps⟩⟩
      · rw [hr, h1n] at h11
        exact absurd h11 hne

/-- C10 at a record with a one-to-one child, a sequence of two saved children
and an unset one-to-one field: the document of the upsert holds the two
identifiers of the children, in their order. -/
theorem Save_stores_reference_sequences_witness :
    List.Forall₂
      (fun f g => g.1 = f.1 ∧
        (0 < f.1.modelTag.length → f.1.relationTag = REL_1N →
          ∃ ids, g.2 = .idSlice ids ∧ (∀ id ∈ ids, ObjectId.Valid id = true) ∧
            ((f.2 = .nil ∧ ids = []) ∨
              ∃ elems, sliceElements f.2 = some elems ∧
                List.Forall₂ (fun x id => referenceOf x = some id) elems ids)))
      (Example.team (.doc (Example.child Example.idM))
        (.docSlice [Example.child Example.idM, Example.child Example.idX]) .nil).fields
      (WriteOp.upsertId "Person" Example.idE
        (.mk "Person" ⟨true, some "Person", true⟩ Example.idE 5 20
          [(Example.managerDecl, .objectId Example.idM),
           (Example.reportsDecl, .idSlice [Example.idM, Example.idX]),
           (Example.buddyDecl, .nil)])).document.fields :=
  Save_stores_reference_sequences Example.envE
    (Example.team (.doc (Example.child Example.idM))
      (.docSlice [Example.child Example.idM, Example.child Example.idX]) .nil)
    (.upsertId "Person" Example.idE
      (.mk "Person" ⟨true, some "Person", true⟩ Example.idE 5 20
        [(Example.managerDecl, .objectId Example.idM),
         (Example.reportsDecl, .idSlice [Example.idM, Example.idX]),
         (Example.buddyDecl, .nil)]))
    (List.Mem.head _)

/-! ## Queries -/

theorem objectIdsOfInterfaces_ne_err : ∀ (xs : List Value) (e : Error),
    objectIdsOfInterfaces xs ≠ .err e
  | [], e, h => by simp [objectIdsOfInterfaces] at h
  | x :: rest, e, h => by
    cases x <;> simp only [objectIdsOfInterfaces] at h
    case objectId id =>
      cases hr : objectIdsOfInterfaces rest with
      | ok ids => rw [hr] at h; cases h
      | panic p => rw [hr] at h; cases h
      | err e1 => exact objectIdsOfInterfaces_ne_err rest e1 hr
    all_goals cases h

theorem initField_ne_err (f : Field) (e : Error) : initField f ≠ .err e := by
  intro h
  obtain ⟨decl, v⟩ := f
  unfold initField at h
  by_cases hr : decl.relationTag.length > 0
  · simp only [hr, if_true] at h
    by_cases h1n : decl.relationTag = REL_1N
    · simp only [h1n, if_true] at h
      split at h
      all_goals (try cases h)
      rename_i xs
      cases hx : objectIdsOfInterfaces xs with
      | ok ids => rw [hx] at h; cases h
      | panic p => rw [hx] at h; cases h
      | err e1 => exact objectIdsOfInterfaces_ne_err xs e1 hx
    · simp only [h1n, if_false] at h
      split at h <;> cases h
  · simp only [hr, if_false] at h
    cases h

theorem initFields_ne_err : ∀ (fs : List Field) (e : Error), initFields fs ≠ .err e
  | [], e, h => by simp [initFields] at h
  | f :: rest, e, h => by
    rw [initFields] at h
    cases hf : initField f with
    | err e1 => exact initField_ne_err f e1 hf
    | panic p => rw [hf] at h; cases h
    | ok f1 =>
      rw [hf] at h
      cases hr : initFields rest with
      | ok fs => rw [hr] at h; cases h
      | panic p => rw [hr] at h; cases h
      | err e1 => exact initFields_ne_err rest e1 hr

theorem initRecord_ne_err (q : Query) (d : Document) (e : Error) : q.initRecord d ≠ .err e := by
  intro h
  unfold Query.initRecord Query.initWithObjectId at h
  by_cases hp : q.populate.length = 0
  · simp only [hp, if_true] at h
    cases hf : initFields d.fields with
    | ok fs => rw [hf] at h; cases h
    | panic p => rw [hf] at h; cases h
    | err e1 => exact initFields_ne_err _ e1 hf
  · simp only [hp, if_false] at h
    cases h

theorem initRecords_ne_err (q : Query) : ∀ (ds : List Document) (e : Error),
    q.initRecords ds ≠ .err e
  | [], e, h => by simp [Query.initRecords] at h
  | d :: rest, e, h => by
    rw [Query.initRecords] at h
    cases hd : q.initRecord d with
    | err e1 => exact initRecord_ne_err q d e1 hd
    | panic p => rw [hd] at h; cases h
    | ok d1 =>
      rw [hd] at h
      cases hr : q.initRecords rest with
      | ok ds => rw [hr] at h; cases h
      | panic p => rw [hr] at h; cases h
      | err e1 => exact initRecords_ne_err q rest e1 hr

/-- The sentinel `mgo.ErrNotFound` never leaves `Exec`: it is translated into a
`NotFoundError`. The test `relationError == mgo.ErrNotFound` of `runPopulation`
on the result of `Exec` therefore never holds. -/
theorem Exec_ne_errNotFound (drv : Driver) (q : Query) (dest r : Dest) (err : Option Error)
    (h : q.Exec drv dest = .returned err r) : err ≠ some (.driver .errNotFound) := by
  intro herr
  subst herr
  unfold Query.Exec at h
  cases dest with
  | nil => cases h
  | multi ds =>
    simp only at h
    split at h
    · cases h
    · split at h
      · cases h
      · rename_i e1 hne _
        injection h with h _
        injection h with h
        injection h with h
        exact hne h
      · split at h
        · cases h
        · rename_i e1 he
          exact initRecords_ne_err _ _ _ he
        · cases h
  | single d =>
    simp only at h
    split at h
    · cases h
    · split at h
      · cases h
      · rename_i e1 hne _
        injection h with h _
        injection h with h
        injection h with h
        exact hne h
      · split at h
        · cases h
        · rename_i e1 he
          exact initRecord_ne_err _ _ _ he
        · cases h

/-- With population fields requested, a successful single-result `Exec` only
wires the record: the relation fields stay exactly as the driver decoded them. -/
theorem Exec_with_populate (drv : Driver) (q : Query) (d value : Document)
    (hm : q.multiple = false) (hp : q.populate ≠ [])
    (hone : drv.one q.extendQuery = .ok value) :
    q.Exec drv (.single d) = .returned none (.single (initDocument value q.collection)) := by
  have hlen : q.populate.length ≠ 0 := fun h => hp (List.length_eq_zero.1 h)
  simp [Query.Exec, hm, hone, Query.initRecord, Query.initWithObjectId, hlen]

/-- C1 (code defect). The scenario of the specification: the manager and the
employee are saved, then `FindById(E.id).Populate("Manager").Exec(&e2)` runs.
`Exec` returns nil and `e2.Manager` holds the bare reference `idM`, as decoded
by the driver; it is `runPopulation`, which `Exec` does not invoke, that would
put the bound manager record there. -/
theorem Exec_populate_leaves_reference :
    ∃ e2, ((Example.people.FindId Example.idE).Populate ["Manager"]).Exec
        (memoryDriver Example.store) (.single Example.personType.zero) =
        .returned none (.single e2) ∧
      (fieldByName e2.fields "Manager").map Prod.snd = some (.objectId Example.idM) ∧
      ∃ m, (fieldByName (((Example.people.FindId Example.idE).Populate ["Manager"]).runPopulation
          (memoryDriver Example.store) Example.connection e2).document.fields "Manager").map
          Prod.snd = some (.doc m) ∧ m.Id = Example.idM :=
  ⟨_, rfl, rfl, _, rfl, rfl⟩

/-- C4 (code defect). A bound person whose `Manager` field holds the reference
`idX`, which no document of the store carries: the lookup inside `runPopulation`
yields a `NotFoundError`, yet `runPopulation` returns nil and the field is
replaced by a fresh record without identifier. -/
theorem runPopulation_not_found_returns_nil :
    (∃ r, (Example.people.FindId Example.idX).Exec (memoryDriver Example.store)
        (.single Example.personType.zero) =
        .returned (some (.notFoundError "No records found")) r) ∧
    (Query.runPopulation (memoryDriver Example.store)
        ⟨"Person", .all, none, ["Manager"], [], 0, 0, false⟩ Example.connection
        (Example.person (.objectId Example.idX) .nil)).outcome = .returned none ∧
    ∃ m, (fieldByName (Query.runPopulation (memoryDriver Example.store)
        ⟨"Person", .all, none, ["Manager"], [], 0, 0, false⟩ Example.connection
        (Example.person (.objectId Example.idX) .nil)).document.fields "Manager").map Prod.snd =
        some (.doc m) ∧ m.Id = [] :=
  ⟨⟨_, rfl⟩, rfl, _, rfl, rfl⟩

/-- C9. A single-result query whose fetch the driver answers with not-found
returns a `NotFoundError` and hands back the destination as it was; any other
driver error is returned unchanged. -/
theorem Exec_single_driver_error (drv : Driver) (q : Query) (d : Document)
    (hm : q.multiple = false) :
    (drv.one q.extendQuery = .error .errNotFound →
      q.Exec drv (.single d) =
        .returned (some (.notFoundError "No records found")) (.single d)) ∧
    (∀ e, e ≠ .errNotFound → drv.one q.extendQuery = .error e →
      ∃ r, q.Exec drv (.single d) = .returned (some (.driver e)) r) := by
  constructor
  · intro h
    simp [Query.Exec, hm, h]
  · intro e hne h
    refine ⟨.single d, ?_⟩
    cases e with
    | errNotFound => exact absurd rfl hne
    | failure isDup code => simp [Query.Exec, hm, h]

/-- C9 at `FindById(idX)` on a store without such a document, with an unbound
zero-valued destination, and at a driver reporting a failure. -/
theorem Exec_single_driver_error_witness :
    (Example.people.FindId Example.idX).Exec (memoryDriver Example.store)
        (.single Example.personType.zero) =
      .returned (some (.notFoundError "No records found")) (.single Example.personType.zero) ∧
    ∃ r, (Example.people.FindOne .all).Exec ⟨fun _ => .error (.failure false 9), fun _ => .ok []⟩
        (.single Example.personType.zero) = .returned (some (.driver (.failure false 9))) r :=
  ⟨(Exec_single_driver_error (memoryDriver Example.store) (Example.people.FindId Example.idX)
      Example.personType.zero rfl).1 rfl,
   (Exec_single_driver_error ⟨fun _ => .error (.failure false 9), fun _ => .ok []⟩
      (Example.people.FindOne .all) Example.personType.zero rfl).2 (.failure false 9)
      (fun h => by cases h) rfl⟩


/-! ## The registry -/

theorem lookup_cons_self {β : Type} (k : String) (v : β) (es : List (String × β)) :
    List.lookup k ((k, v) :: es) = some v := by
  simp [List.lookup]

theorem lookup_cons_of_ne {β : Type} {k a : String} (v : β) (es : List (String × β))
    (h : k ≠ a) : List.lookup k ((a, v) :: es) = List.lookup k es := by
  have hb : (k == a) = false := by simpa using h
  simp [List.lookup, hb]

/-- The type of a zero-valued record is the type it was made from. -/
theorem zero_structType (t : StructType) : t.zero.structType = t := by
  obtain ⟨n, fs⟩ := t
  simp [StructType.zero, Document.structType, Document.typeName, Document.fields,
    List.map_map, Function.comp_def]

theorem New_structType (c : Collection) (d : Document) : (c.New d).structType = d.structType := by
  obtain ⟨n, w, id, ca, ua, fs⟩ := d
  rfl

theorem Model_document_same (c : Connection) (sample : Document) (collectionName s : String)
    (h : ToLower s = ToLower sample.typeName) :
    (c.Model sample collectionName).2.document s =
      .ok ((Collection.mk collectionName).New sample.structType.zero) := by
  simp [Connection.document, Connection.Model, h, lookup_cons_self]

theorem Model_document_other (c : Connection) (sample : Document) (collectionName s : String)
    (h : ToLower s ≠ ToLower sample.typeName) :
    (c.Model sample collectionName).2.document s = c.document s := by
  simp [Connection.document, Connection.Model, lookup_cons_of_ne _ _ h]

theorem registerAll_unregistered :
    ∀ (regs : List (Document × String)) (c : Connection) (s : String),
      c.typeRegistry.lookup (ToLower s) = none →
      (∀ r ∈ regs, ToLower r.1.typeName ≠ ToLower s) →
      (registerAll c regs).document s = .panic .typeNotRegistered
  | [], c, s, hc, _ => by simp [registerAll, Connection.document, hc]
  | (sample, collectionName) :: rest, c, s, hc, h => by
    rw [registerAll]
    apply registerAll_unregistered rest
    · have hne : ToLower s ≠ ToLower sample.typeName := fun e => h (sample, collectionName) (by simp) e.symm
      simp [Connection.Model, lookup_cons_of_ne _ _ hne, hc]
    · intro r hr
      exact h r (List.mem_cons_of_mem _ hr)

/-- C12. After `Model` has registered a record type under a collection name,
`document` succeeds for every name equal to the type name up to letter case and
returns a fresh zero-valued record of that type wired to that collection, the
connection and itself; a later `Model` for the same name replaces the binding;
the answers for all other names are unchanged; and on a registry built by calls
of `Model`, a name whose lower-cased form was never registered makes `document`
fail fatally. -/
theorem document_after_Model (c : Connection) (sample : Document) (collectionName : String) :
    (∀ s, ToLower s = ToLower sample.typeName →
      (c.Model sample collectionName).2.document s =
        .ok (.mk sample.typeName ⟨true, some collectionName, true⟩ [] 0 0
          (sample.fields.map fun f => (f.1, Value.nil)))) ∧
    (∀ (sample2 : Document) (collectionName2 s : String),
      ToLower sample2.typeName = ToLower sample.typeName →
      ToLower s = ToLower sample.typeName →
      ((c.Model sample collectionName).2.Model sample2 collectionName2).2.document s =
        .ok (.mk sample2.typeName ⟨true, some collectionName2, true⟩ [] 0 0
          (sample2.fields.map fun f => (f.1, Value.nil)))) ∧
    (∀ s, ToLower s ≠ ToLower sample.typeName →
      (c.Model sample collectionName).2.document s = c.document s) ∧
    (∀ (regs : List (Document × String)) (s : String),
      (∀ r ∈ regs, ToLower r.1.typeName ≠ ToLower s) →
      (registerAll ⟨[], []⟩ regs).document s = .panic .typeNotRegistered) := by
  have key : ∀ (c1 : Connection) (d : Document) (cn s : String),
      ToLower s = ToLower d.typeName →
      (c1.Model d cn).2.document s =
        .ok (.mk d.typeName ⟨true, some cn, true⟩ [] 0 0 (d.fields.map fun f => (f.1, Value.nil))) := by
    intro c1 d cn s h
    rw [Model_document_same c1 d cn s h]
    simp [Collection.New, StructType.zero, Document.structType, Document.setWiring,
      Document.typeName, Document.Id, Document.CreatedAt, Document.UpdatedAt, Document.fields,
      List.map_map, Function.comp_def]
  refine ⟨key c sample collectionName, ?_, Model_document_other c sample collectionName, ?_⟩
  · intro sample2 cn2 s h2 hs
    exact key _ sample2 cn2 s (hs.trans h2.symm)
  · intro regs s h
    exact registerAll_unregistered regs ⟨[], []⟩ s rfl h

/-- C12 at the registry of the examples: "WORKER" resolves to a fresh worker
bound to "workers", and "Robot" was never registered. -/
theorem document_after_Model_witness :
    ((Connection.mk [] []).Model Example.workerType.zero "workers").2.document "WORKER" =
      .ok (.mk "Worker" ⟨true, some "workers", true⟩ [] 0 0
        [(Example.tasksDecl, .nil), (Example.bossDecl, .nil)]) ∧
    (registerAll ⟨[], []⟩ [(Example.workerType.zero, "workers"), (Example.taskType.zero, "tasks")]).document
      "Robot" = .panic .typeNotRegistered :=
  ⟨(document_after_Model ⟨[], []⟩ Example.workerType.zero "workers").1 "WORKER" (by decide),
   (document_after_Model ⟨[], []⟩ Example.workerType.zero "workers").2.2.2
      [(Example.workerType.zero, "workers"), (Example.taskType.zero, "tasks")] "Robot"
      (by decide)⟩


/-! ## Population -/

theorem fieldByName_setFieldByName (name : String) (v : Value) :
    ∀ (fs : List Field) (f : Field), fieldByName fs name = some f →
      fieldByName (setFieldByName fs name v) name = some (f.1, v)
  | [], f, h => by simp [fieldByName] at h
  | g :: rest, f, h => by
    by_cases hg : g.1.name = name
    · have : f = g := by
        simp [fieldByName, List.find?, hg] at h
        exact h.symm
      subst this
      simp [setFieldByName, hg, fieldByName, List.find?]
    · have h2 : fieldByName rest name = some f := by
        simpa [fieldByName, List.find?, hg] using h
      have ih := fieldByName_setFieldByName name v rest f h2
      simpa [setFieldByName, hg, fieldByName, List.find?] using ih

/-- The answer of `Exec` depends on the driver only through the native query it
issues. -/
theorem Exec_congr (drv drv2 : Driver) (q : Query) (dest : Dest)
    (h1 : drv2.one q.extendQuery = drv.one q.extendQuery)
    (h2 : drv2.all q.extendQuery = drv.all q.extendQuery) :
    q.Exec drv2 dest = q.Exec drv dest := by
  unfold Query.Exec
  rw [h1, h2]

/-- A step of `runPopulation` on a relation field whose target resolves leaves
the registry as the call of `Model` with the tag text makes it. -/
theorem populateField_connection (drv : Driver) (q : Query) (conn : Connection) (d : Document)
    (name : String) (f : Field) (rd : Document)
    (hf : fieldByName d.fields name = some f) (ht : 0 < f.1.modelTag.length)
    (hreg : conn.document f.1.modelTag = .ok rd) :
    (q.populateField drv conn d name).connection = (conn.Model rd f.1.modelTag).2 := by
  have ht0 : f.1.modelTag.length ≠ 0 := by omega
  unfold Query.populateField
  simp only [hf, ht0, if_false, hreg]
  repeat (first | rfl | split)

theorem Populate_bound (drv : Driver) (conn : Connection) (d : Document) (field : List String)
    (hb : d.bound) :
    ∃ c, d.wiring.collection = some c ∧
      Populate drv conn d field =
        Query.populateLoop drv ⟨c, .all, none, field, [], 0, 0, false⟩ field conn d := by
  obtain ⟨h1, h2, h3⟩ := hb
  obtain ⟨c, hc⟩ := Option.isSome_iff_exists.1 h2
  refine ⟨c, hc, ?_⟩
  simp [Populate, hc, h1, h3, Query.runPopulation]

/-- C11 (as stated, refuted). Populating an unset one-to-many field returns nil
and leaves the field unset, not an empty sequence; populating the field of a
record that `Save` has left holding the empty sequence of references fails
fatally; and populating a field holding one reference that matches no document
returns nil and leaves the field holding the nil slice. -/
theorem Populate_empty_relation_fails :
    ((Populate (memoryDriver Example.store) Example.connection
        (Example.person (.objectId Example.idM) .nil) ["Reports"]).outcome = .returned none ∧
      (fieldByName (Populate (memoryDriver Example.store) Example.connection
        (Example.person (.objectId Example.idM) .nil) ["Reports"]).document.fields
        "Reports").map Prod.snd = some .nil) ∧
    ((fieldByName Example.manager.fields "Reports").map Prod.snd = some (.idSlice []) ∧
      (Populate (memoryDriver Example.store) Example.connection Example.manager
        ["Reports"]).outcome = .panicked .unknownRelationType) ∧
    ((Populate (memoryDriver Example.store) Example.connection
        (Example.person .nil (.ifaceSlice [.objectId Example.idX])) ["Reports"]).outcome =
        .returned none ∧
      (fieldByName (Populate (memoryDriver Example.store) Example.connection
        (Example.person .nil (.ifaceSlice [.objectId Example.idX])) ["Reports"]).document.fields
        "Reports").map Prod.snd = some .nilDocSlice) :=
  ⟨⟨rfl, rfl⟩, ⟨rfl, rfl⟩, rfl, rfl⟩

/-- C11 (amended). A bound record with a relation field, one-to-many in
particular, whose target type resolves: populating the field while it is unset
returns nil and leaves the record as it is, the field unset; populating it while
it holds the empty sequence in the generic decoding of the driver returns nil
and leaves the field holding the empty, non-nil sequence of records, when the
lookup returns no documents or fails. -/
theorem Populate_empty_relation (drv : Driver) (conn : Connection) (d : Document)
    (name : String) (f : Field) (rd : Document) (hb : d.bound)
    (hf : fieldByName d.fields name = some f) (ht : 0 < f.1.modelTag.length)
    (hreg : conn.document f.1.modelTag = .ok rd) :
    (f.2 = .nil →
      (Populate drv conn d [name]).outcome = .returned none ∧
      (Populate drv conn d [name]).document = d ∧
      fieldByName (Populate drv conn d [name]).document.fields name = some (f.1, .nil)) ∧
    (f.2 = .ifaceSlice [] →
      (drv.all ((Collection.mk f.1.modelTag).Find (.idIn [])).extendQuery = .ok [] ∨
        ∃ e, drv.all ((Collection.mk f.1.modelTag).Find (.idIn [])).extendQuery = .error e) →
      (Populate drv conn d [name]).outcome = .returned none ∧
      fieldByName (Populate drv conn d [name]).document.fields name =
        some (f.1, .docSlice [])) := by
  obtain ⟨c, -, hP⟩ := Populate_bound drv conn d [name] hb
  have ht0 : f.1.modelTag.length ≠ 0 := by omega
  have hset := fieldByName_setFieldByName name (.docSlice []) d.fields f hf
  rw [hP]
  constructor
  · intro hv
    have hstep : Query.populateField drv ⟨c, .all, none, [name], [], 0, 0, false⟩ conn d name =
        .next d (conn.Model rd f.1.modelTag).2 := by
      unfold Query.populateField
      simp only [hf, ht0, if_false, hreg, hv]
    simp only [Query.populateLoop, hstep]
    refine ⟨by first | rfl | trivial, by first | rfl | trivial, ?_⟩
    rw [hf]
    obtain ⟨decl, v⟩ := f
    simp only at hv
    rw [hv]
  · intro hv hall
    have hstep : Query.populateField drv ⟨c, .all, none, [name], [], 0, 0, false⟩ conn d name =
        .next (d.setFields (setFieldByName d.fields name (.docSlice [])))
          (conn.Model rd f.1.modelTag).2 := by
      unfold Query.populateField
      simp only [hf, ht0, if_false, hreg, hv]
      have hm : ((Collection.mk f.1.modelTag).Find (.idIn [])).multiple = true := rfl
      have hexec : ∃ err r, ((Collection.mk f.1.modelTag).Find (.idIn [])).Exec drv
          (.multi none) = .returned err (.multi r) := by
        rcases hall with hok | ⟨e, herr⟩
        · refine ⟨none, none, ?_⟩
          unfold Query.Exec
          simp only [hm, hok]
          simp [Query.initRecords, sliceAfterAll]
        · cases e with
          | errNotFound =>
            refine ⟨some (.notFoundError "No records found"), none, ?_⟩
            unfold Query.Exec
            simp only [hm, herr]
            simp
          | failure b n =>
            refine ⟨some (.driver (.failure b n)), none, ?_⟩
            unfold Query.Exec
            simp only [hm, herr]
            simp
      obtain ⟨err, r, hexec⟩ := hexec
      simp [Connection.Model, hexec]
    simp only [Query.populateLoop, hstep]
    refine ⟨by first | rfl | trivial, ?_⟩
    obtain ⟨n, w, id, ca, ua, fs⟩ := d
    exact hset

/-- C11 (amended) at a bound person: with `Reports` unset nothing changes; with
`Reports` holding the decoded empty sequence the field becomes the empty,
non-nil sequence of records. -/
theorem Populate_empty_relation_witness :
    (Populate (memoryDriver Example.store) Example.connection
      (Example.person .nil .nil) ["Reports"]).document = Example.person .nil .nil ∧
    fieldByName (Populate (memoryDriver Example.store) Example.connection
      (Example.person .nil (.ifaceSlice [])) ["Reports"]).document.fields
      "Reports" = some (Example.reportsDecl, .docSlice []) :=
  ⟨((Populate_empty_relation (memoryDriver Example.store) Example.connection
      (Example.person .nil .nil) "Reports" (Example.reportsDecl, .nil)
      (.mk "Person" ⟨true, some "Person", true⟩ [] 0 0
        [(Example.managerDecl, .nil), (Example.reportsDecl, .nil)])
      ⟨rfl, rfl, rfl⟩ rfl (by decide) rfl).1 rfl).2.1,
   ((Populate_empty_relation (memoryDriver Example.store) Example.connection
      (Example.person .nil (.ifaceSlice [])) "Reports"
      (Example.reportsDecl, .ifaceSlice [])
      (.mk "Person" ⟨true, some "Person", true⟩ [] 0 0
        [(Example.managerDecl, .nil), (Example.reportsDecl, .nil)])
      ⟨rfl, rfl, rfl⟩ rfl (by decide) rfl).2 rfl (Or.inl rfl)).2⟩

theorem populateLoop_append (drv : Driver) (q : Query) (rest : List String) :
    ∀ (pre : List String) (conn : Connection) (d d1 : Document) (c1 : Connection),
      q.populateLoop drv pre conn d = ⟨.returned none, d1, c1⟩ →
      q.populateLoop drv (pre ++ rest) conn d = q.populateLoop drv rest c1 d1
  | [], conn, d, d1, c1, h => by
    simp only [Query.populateLoop] at h
    injection h with _ h2 h3
    subst h2 h3
    rfl
  | n :: pre, conn, d, d1, c1, h => by
    rw [List.cons_append, Query.populateLoop]
    rw [Query.populateLoop] at h
    cases hs : q.populateField drv conn d n with
    | next d2 c2 =>
      rw [hs] at h
      simp only at h ⊢
      exact populateLoop_append drv q rest pre c2 d2 d1 c1 h
    | ret e d2 c2 =>
      rw [hs] at h
      simp only at h
      injection h with h _ _
      cases h
    | panic p c2 =>
      rw [hs] at h
      simp only at h
      injection h with h _ _
      cases h

theorem populateLoop_single (drv : Driver) (q : Query) (conn : Connection) (d : Document)
    (name : String) :
    (q.populateLoop drv [name] conn d).connection = (q.populateField drv conn d name).connection := by
  rw [Query.populateLoop]
  cases q.populateField drv conn d name <;> rfl

/-- The loop body of `runPopulation` consults the driver only for queries on the
collection named by the model tag of the field. -/
theorem populateField_congr (drv drv2 : Driver) (q : Query) (conn : Connection) (d : Document)
    (name : String) (f : Field) (hf : fieldByName d.fields name = some f)
    (h : ∀ mq : MgoQuery, mq.collection = f.1.modelTag →
      drv2.one mq = drv.one mq ∧ drv2.all mq = drv.all mq) :
    q.populateField drv2 conn d name = q.populateField drv conn d name := by
  have hex : ∀ (q1 : Query) (dest : Dest), q1.collection = f.1.modelTag →
      q1.Exec drv2 dest = q1.Exec drv dest := by
    intro q1 dest hc
    have hc2 : q1.extendQuery.collection = f.1.modelTag := hc
    exact Exec_congr drv drv2 q1 dest (h _ hc2).1 (h _ hc2).2
  unfold Query.populateField
  simp only [hf, Connection.Model]
  have hone : ∀ id rd, ((Collection.mk f.1.modelTag).FindId id).Exec drv2 (.single rd) =
      ((Collection.mk f.1.modelTag).FindId id).Exec drv (.single rd) :=
    fun id rd => hex _ _ rfl
  have hall : ∀ xs, ((Collection.mk f.1.modelTag).Find (.idIn xs)).Exec drv2 (.multi none) =
      ((Collection.mk f.1.modelTag).Find (.idIn xs)).Exec drv (.multi none) :=
    fun xs => hex _ _ rfl
  simp only [hone, hall]

/-- C13 (as stated, refuted). The fields `Tasks` and `Boss` are requested and
the lookup for `Tasks` fails in the driver: `runPopulation` returns that error
before it gets to `Boss`, whose model tag is "Worker", and the registry still
binds the worker type to the collection "workers". -/
theorem runPopulation_later_field_not_rebound :
    (fieldByName (Example.worker (.ifaceSlice [.objectId Example.idM])
        (.objectId Example.idX)).fields "Boss").map (fun f => f.1.modelTag) = some "Worker" ∧
    Example.office.modelRegistry.lookup (ToLower "Worker") = some "workers" ∧
    (Query.runPopulation Example.failingDriver
        ⟨"workers", .all, none, ["Tasks", "Boss"], [], 0, 0, false⟩ Example.office
        (Example.worker (.ifaceSlice [.objectId Example.idM]) (.objectId Example.idX))).outcome =
      .returned (some (.driver (.failure false 9))) ∧
    (Query.runPopulation Example.failingDriver
        ⟨"workers", .all, none, ["Tasks", "Boss"], [], 0, 0, false⟩ Example.office
        (Example.worker (.ifaceSlice [.objectId Example.idM])
          (.objectId Example.idX))).connection.modelRegistry.lookup (ToLower "Worker") =
      some "workers" :=
  ⟨rfl, rfl, rfl, rfl⟩

/-- C13 (amended). When `runPopulation` gets to a requested relation field (the
fields requested before it were populated without an error or a panic) whose
model tag is `t` and whose target type `T` is registered with the collection
`C`, the registry afterwards binds the name of `T` to the collection named `t`
and to the same type; that binding is the earlier one exactly when `t = C`; all
other names keep their bindings; and the step for this field consults the
driver only for queries on the collection named `t`. -/
theorem runPopulation_rebinds_target (drv : Driver) (q : Query) (conn c1 : Connection)
    (d d1 : Document) (pre : List String) (name : String) (f : Field) (T : StructType)
    (C : String) (hq : q.populate = pre ++ [name])
    (hpre : q.populateLoop drv pre conn d = ⟨.returned none, d1, c1⟩)
    (hf : fieldByName d1.fields name = some f) (ht : 0 < f.1.modelTag.length)
    (hT : c1.typeRegistry.lookup (ToLower f.1.modelTag) = some T)
    (hname : ToLower T.name = ToLower f.1.modelTag)
    (hC : c1.modelRegistry.lookup (ToLower f.1.modelTag) = some C) :
    (q.runPopulation drv conn d).connection.modelRegistry.lookup (ToLower T.name) =
      some f.1.modelTag ∧
    (q.runPopulation drv conn d).connection.typeRegistry.lookup (ToLower T.name) = some T ∧
    ((q.runPopulation drv conn d).connection.modelRegistry.lookup (ToLower T.name) =
        c1.modelRegistry.lookup (ToLower T.name) ↔ f.1.modelTag = C) ∧
    (∀ k, k ≠ ToLower T.name →
      (q.runPopulation drv conn d).connection.modelRegistry.lookup k =
        c1.modelRegistry.lookup k ∧
      (q.runPopulation drv conn d).connection.typeRegistry.lookup k =
        c1.typeRegistry.lookup k) ∧
    (∀ drv2 : Driver,
      (∀ mq : MgoQuery, mq.collection = f.1.modelTag →
        drv2.one mq = drv.one mq ∧ drv2.all mq = drv.all mq) →
      q.populateField drv2 c1 d1 name = q.populateField drv c1 d1 name) := by
  have hreg : c1.document f.1.modelTag = .ok ((Collection.mk C).New T.zero) := by
    simp [Connection.document, hT, hC]
  have hconn : (q.runPopulation drv conn d).connection =
      (c1.Model ((Collection.mk C).New T.zero) f.1.modelTag).2 := by
    rw [Query.runPopulation, hq, populateLoop_append drv q [name] pre conn d d1 c1 hpre,
      populateLoop_single, populateField_connection drv q c1 d1 name f _ hf ht hreg]
  have htn : ((Collection.mk C).New T.zero).typeName = T.name := by
    obtain ⟨n, fs⟩ := T
    rfl
  have hst : ((Collection.mk C).New T.zero).structType = T := by
    rw [New_structType, zero_structType]
  have hm : (c1.Model ((Collection.mk C).New T.zero) f.1.modelTag).2.modelRegistry =
      (ToLower T.name, f.1.modelTag) :: c1.modelRegistry := by
    simp [Connection.Model, htn]
  have hty : (c1.Model ((Collection.mk C).New T.zero) f.1.modelTag).2.typeRegistry =
      (ToLower T.name, T) :: c1.typeRegistry := by
    simp [Connection.Model, htn, hst]
  rw [hconn, hm, hty]
  refine ⟨lookup_cons_self _ _ _, lookup_cons_self _ _ _, ?_, ?_, ?_⟩
  · rw [lookup_cons_self, hname, hC]
    constructor
    · intro h; injection h
    · intro h; rw [h]
  · intro k hk
    exact ⟨lookup_cons_of_ne _ _ hk, lookup_cons_of_ne _ _ hk⟩
  · intro drv2 h
    exact populateField_congr drv drv2 q c1 d1 name f hf h

/-- C13 (amended) at a worker whose boss is stored in the collection "workers":
populating `Boss`, whose model tag is "Worker", leaves the registry binding the
worker type to the collection "Worker". -/
theorem runPopulation_rebinds_target_witness :
    (Query.runPopulation Example.workersDriver
        ⟨"workers", .all, none, ["Boss"], [], 0, 0, false⟩ Example.office
        (Example.worker .nil (.objectId Example.idX))).connection.modelRegistry.lookup
        (ToLower Example.workerType.name) = some "Worker" :=
  (runPopulation_rebinds_target Example.workersDriver
    ⟨"workers", .all, none, ["Boss"], [], 0, 0, false⟩ Example.office Example.office
    (Example.worker .nil (.objectId Example.idX)) (Example.worker .nil (.objectId Example.idX))
    [] "Boss" (Example.bossDecl, .objectId Example.idX) Example.workerType "workers"
    rfl rfl rfl (by decide) rfl rfl rfl).1

/-- On a registry built by calls of `Model`, every type is registered under its
own lower-cased name. -/
theorem registerAll_key :
    ∀ (regs : List (Document × String)) (c : Connection),
      (∀ k T, c.typeRegistry.lookup k = some T → ToLower T.name = k) →
      ∀ k T, (registerAll c regs).typeRegistry.lookup k = some T → ToLower T.name = k
  | [], c, hc, k, T, h => hc k T h
  | (sample, collectionName) :: rest, c, hc, k, T, h => by
    rw [registerAll] at h
    refine registerAll_key rest _ ?_ k T h
    intro k1 T1 h1
    by_cases hk : k1 = ToLower sample.typeName
    · subst hk
      simp only [Connection.Model, lookup_cons_self] at h1
      injection h1 with h1
      subst h1
      rfl
    · simp only [Connection.Model, lookup_cons_of_ne _ _ hk] at h1
      exact hc k1 T1 h1

end Models
